import Mathlib

/-!
SimFigure: a shallow embedding of `SimFigure/source/simfigure.cpp`.

The widget is embedded as a record of its member variables together with the
part of the Qwt plot surface (`QwtPlot`) that the member functions read and
write.  Every member function becomes a pure function from figure states to
figure states (plus the returned value, when there is one).

Conventions of the embedding

* Objects created with `new` are identified by their address (`Ptr`).  A nullable
  pointer is an `Option Ptr`, with `none` for `nullptr`.
* `double` values are exact rationals.  The hit test only ever compares
  non-negative distances with each other and with the constants `1000` and `5`,
  so a distance `d` is stored as its square `d * d`.  The embedding follows the
  source branch for branch and agrees with it whenever rounding does not change
  the outcome of a comparison, as in all example figures of this file.  It does
  not represent rounding: when a value of the source lies within rounding error
  of a threshold (`dist <= 5`, `s2 > 1e-6`) the double-precision comparison of
  the source may come out differently from the exact one.  The claims about
  the outcome of the hit test are therefore stated in terms of the distance
  that the segment loop computes (`QwtPlot.curveDist`), which is the quantity
  the source compares with `5`, and not in terms of the geometric distance; the
  lemmas that relate the two (`curveDist_le`, `curveDist_gt`) are facts of
  exact arithmetic.
* Observable effects are recorded in ghost fields: the
  `curve_selected(int)` signals emitted so far (`emitted`), the number of calls
  of `QwtPlot::replot()` (`replotCalls`) and of `SimFigure::rescale()`
  (`rescaleCalls`), and the number of `qWarning()` lines (`warnings`).
-/

/-- Address of a heap object. -/
abbrev Ptr := Nat

/-- The `AxisType` enum class of the widget. -/
inductive AxisType where
  | Default | LogX | LogY | LogLog
  deriving DecidableEq, Repr

/-- The `LineType` enum class of the widget. -/
inductive LineType where
  | None | Solid | Dashed | Dotted | DashDotted
  deriving DecidableEq, Repr

/-- The `Marker` enum class of the widget. -/
inductive Marker where
  | None | Ex | Box | Plus | Circle | Asterisk
  | Triangle | DownTriangle | LeftTriangle | RightTriangle
  deriving DecidableEq, Repr

/-- The pen styles of Qt used by the widget (`Qt::PenStyle`). -/
inductive PenStyle where
  | NoPen | SolidLine | DashLine | DotLine | DashDotLine
  deriving DecidableEq, Repr

/-- The brush styles of Qt that occur (`Qt::BrushStyle`). -/
inductive BrushStyle where
  | NoBrush | SolidPattern
  deriving DecidableEq, Repr

/-- The symbol styles of Qwt used by `setMarker` (`QwtSymbol::Style`). -/
inductive SymbolStyle where
  | XCross | Rect | Cross | Ellipse | Star1
  | Triangle | DTriangle | LTriangle | RTriangle
  deriving DecidableEq, Repr

/-- The four axes of a `QwtPlot` (`QwtPlot::Axis`). -/
inductive Axis where
  | yLeft | yRight | xBottom | xTop
  deriving DecidableEq, Repr

/-- The run-time type tags of plot items that occur (`QwtPlotItem::RttiValues`). -/
inductive Rtti where
  | Rtti_PlotGrid | Rtti_PlotLegend | Rtti_PlotCurve | Rtti_PlotShape
  deriving DecidableEq, Repr

/-- The two scale engines installed by the widget, both with base 10. -/
inductive ScaleEngine where
  | QwtLinearScaleEngine | QwtLogScaleEngine
  deriving DecidableEq, Repr

/-- An RGBA colour (`QColor`). -/
structure QColor where
  red : Nat
  green : Nat
  blue : Nat
  alpha : Nat
  deriving DecidableEq, Repr

/-- The colour `Qt::black`. -/
def QColor.black : QColor := ⟨0, 0, 0, 255⟩

/-- The colour `Qt::cyan`. -/
def QColor.cyan : QColor := ⟨0, 255, 255, 255⟩

/-- The colour `Qt::darkGray`. -/
def QColor.darkGray : QColor := ⟨128, 128, 128, 255⟩

/-- The colour `Qt::lightGray`. -/
def QColor.lightGray : QColor := ⟨192, 192, 192, 255⟩

/-- A pen (`QPen`): colour, real-valued width and style. -/
structure QPen where
  color : QColor
  widthF : ℚ
  style : PenStyle
  deriving DecidableEq, Repr

/-- Rounding of a real to the nearest integer, halves upwards (`qRound`). -/
def qRound (d : ℚ) : Int := Int.floor (d + 1 / 2)

/-- The integer getter `QPen::width()`, which rounds the stored width. -/
def QPen.width (p : QPen) : Int := qRound p.widthF

/-- The setter `QPen::setWidth(int)`. -/
def QPen.setWidth (p : QPen) (w : Int) : QPen := { p with widthF := (w : ℚ) }

/-- The setter `QPen::setWidthF(qreal)`. -/
def QPen.setWidthF (p : QPen) (w : ℚ) : QPen := { p with widthF := w }

/-- The setter `QPen::setStyle`. -/
def QPen.setStyle (p : QPen) (st : PenStyle) : QPen := { p with style := st }

/-- The setter `QPen::setColor`. -/
def QPen.setColor (p : QPen) (c : QColor) : QPen := { p with color := c }

/-- A brush (`QBrush`). -/
structure QBrush where
  color : QColor
  style : BrushStyle
  deriving DecidableEq, Repr

/-- The pen a freshly constructed `QwtPlotCurve` carries: black, width 1 (Qt's
default pen width), solid. -/
def QPen.default : QPen := ⟨QColor.black, 1, PenStyle.SolidLine⟩

/-- The brush a freshly constructed `QwtPlotCurve` carries. -/
def QBrush.default : QBrush := ⟨QColor.black, BrushStyle.NoBrush⟩

/-- The pen built by the `setPen(color, width)` overloads of Qwt items:
`QPen(color, width, Qt::SolidLine)`. -/
def QPen.ofColorWidth (c : QColor) (w : ℚ) : QPen := ⟨c, w, PenStyle.SolidLine⟩

/-- A plot item of the toolkit (`QwtPlotItem` and the subclasses the widget
touches), flattened into one record.  `addr` is the address of the object;
`samples`, `pen`, `brush`, `symbol` are the curve attributes (`pen` and `brush`
also serve for a shape item, `pen` is the major pen of a grid); `minorPen` and
the four `enable` flags belong to a grid; `shapeHit p` stands for
`boundingRect().contains(p) && shape().contains(p)` of a shape item. -/
structure QwtPlotItem where
  addr : Ptr
  rtti : Rtti
  visible : Bool
  z : ℚ
  xAxis : Axis
  yAxis : Axis
  samples : List (ℚ × ℚ)
  pen : QPen
  brush : QBrush
  symbol : Option SymbolStyle
  minorPen : QPen
  xEnabled : Bool
  yEnabled : Bool
  xMinEnabled : Bool
  yMinEnabled : Bool
  shapeHit : ℚ × ℚ → Bool

/-- The object built by `new QwtPlotCurve("default")` at address `a`: a visible
curve item with z value 20 on the bottom and left axes, without samples. -/
def QwtPlotItem.newCurve (a : Ptr) : QwtPlotItem :=
  { addr := a, rtti := Rtti.Rtti_PlotCurve, visible := true, z := 20,
    xAxis := Axis.xBottom, yAxis := Axis.yLeft, samples := [],
    pen := QPen.default, brush := QBrush.default, symbol := none,
    minorPen := QPen.default, xEnabled := false, yEnabled := false,
    xMinEnabled := false, yMinEnabled := false, shapeHit := fun _ => false }

/-- The object built by `new QwtPlotGrid()` at address `a`: a visible grid item
with z value 10, major lines enabled, minor lines disabled. -/
def QwtPlotItem.newGrid (a : Ptr) : QwtPlotItem :=
  { addr := a, rtti := Rtti.Rtti_PlotGrid, visible := true, z := 10,
    xAxis := Axis.xBottom, yAxis := Axis.yLeft, samples := [],
    pen := QPen.default, brush := QBrush.default, symbol := none,
    minorPen := QPen.default, xEnabled := true, yEnabled := true,
    xMinEnabled := false, yMinEnabled := false, shapeHit := fun _ => false }

/-- The method `QwtPlotCurve::setSamples(x, y)`: the curve holds the points
`(x[i], y[i])` for `i` below the smaller of the two lengths. -/
def QwtPlotItem.setSamples (c : QwtPlotItem) (x y : List ℚ) : QwtPlotItem :=
  { c with samples := List.zip x y }

/-- The method `QwtPlotCurve::dataSize()`. -/
def QwtPlotItem.dataSize (c : QwtPlotItem) : Nat := c.samples.length

/-- A scale map of the canvas (`QwtScaleMap`): the toolkit computes it from the
axis scale and the canvas geometry; the widget only applies it. -/
structure QwtScaleMap where
  transform : ℚ → ℚ
  invTransform : ℚ → ℚ

/-- The part of the plot surface (`QwtPlot`) the widget reads and writes. -/
structure QwtPlot where
  itemList : List QwtPlotItem
  axisScaleEngine : Axis → ScaleEngine
  axisScale : Axis → ℚ × ℚ
  axisMaxMajor : Axis → Int
  axisMaxMinor : Axis → Int
  canvasMap : Axis → QwtScaleMap
  replotCalls : Nat

/-- Insertion of an item into the z-ordered item list, behind every item whose z
value is not larger (`QwtPlotDict::insertItem`, an upper-bound insertion). -/
def QwtPlot.insertItem : List QwtPlotItem → QwtPlotItem → List QwtPlotItem
  | [], it => [it]
  | h :: t, it => if it.z < h.z then it :: h :: t else h :: QwtPlot.insertItem t it

/-- The call `item->attach(plot)`. -/
def QwtPlot.attach (p : QwtPlot) (it : QwtPlotItem) : QwtPlot :=
  { p with itemList := QwtPlot.insertItem p.itemList it }

/-- The call `item->detach()` followed by `delete item`, for the item at
address `a`: the item leaves the item list. -/
def QwtPlot.detach (p : QwtPlot) (a : Ptr) : QwtPlot :=
  { p with itemList := p.itemList.filter (fun it => it.addr != a) }

/-- Dereferencing an item pointer: the attached item at address `a`. -/
def QwtPlot.item (p : QwtPlot) (a : Ptr) : Option QwtPlotItem :=
  p.itemList.find? (fun it => it.addr == a)

/-- A write through an item pointer: the item at address `a` is replaced by its
image under `g`. -/
def QwtPlot.updateItem (p : QwtPlot) (a : Ptr) (g : QwtPlotItem → QwtPlotItem) : QwtPlot :=
  { p with itemList := p.itemList.map (fun it => if it.addr == a then g it else it) }

/-- The getter `curve->pen()` through a pointer.  Every pointer the widget keeps
designates an attached item; for any other address the source is undefined and
the accessor yields the default pen. -/
def QwtPlot.penOf (p : QwtPlot) (a : Ptr) : QPen :=
  match p.item a with
  | some it => it.pen
  | none => QPen.default

/-- The getter `curve->brush()` through a pointer (see `QwtPlot.penOf`). -/
def QwtPlot.brushOf (p : QwtPlot) (a : Ptr) : QBrush :=
  match p.item a with
  | some it => it.brush
  | none => QBrush.default

/-- The method `QwtPlot::replot()`; only the fact that it ran is recorded. -/
def QwtPlot.replot (p : QwtPlot) : QwtPlot :=
  { p with replotCalls := p.replotCalls + 1 }

/-- The method `QwtPlot::setAxisScale(axis, lo, hi)`. -/
def QwtPlot.setAxisScale (p : QwtPlot) (ax : Axis) (lo hi : ℚ) : QwtPlot :=
  { p with axisScale := fun a => if a = ax then (lo, hi) else p.axisScale a }

/-- The method `QwtPlot::setAxisScaleEngine(axis, engine)`. -/
def QwtPlot.setAxisScaleEngine (p : QwtPlot) (ax : Axis) (e : ScaleEngine) : QwtPlot :=
  { p with axisScaleEngine := fun a => if a = ax then e else p.axisScaleEngine a }

/-- The method `QwtPlot::setAxisMaxMajor(axis, n)`. -/
def QwtPlot.setAxisMaxMajor (p : QwtPlot) (ax : Axis) (n : Int) : QwtPlot :=
  { p with axisMaxMajor := fun a => if a = ax then n else p.axisMaxMajor a }

/-- The method `QwtPlot::setAxisMaxMinor(axis, n)`. -/
def QwtPlot.setAxisMaxMinor (p : QwtPlot) (ax : Axis) (n : Int) : QwtPlot :=
  { p with axisMaxMinor := fun a => if a = ax then n else p.axisMaxMinor a }

/-- The record `lastSelection` of the widget: the selected item, its handle and
the pen and brush it had when it was selected. -/
structure Selection where
  object : Option Ptr
  plotID : Int
  pen : QPen
  brush : QBrush
  deriving DecidableEq, Repr

/-- The four radio buttons of the form (`ui->btn_standard`, `ui->btn_logX`,
`ui->btn_logY`, `ui->btn_loglog`), each with its checked state. -/
structure Ui where
  btn_standard : Bool
  btn_logX : Bool
  btn_logY : Bool
  btn_loglog : Bool
  deriving DecidableEq, Repr

/-- The radio buttons of the form, by name. -/
inductive RadioButton where
  | btn_standard | btn_logX | btn_logY | btn_loglog
  deriving DecidableEq, Repr

/-- Modelled from the spec: the form `ui_simfigure.h` is generated from a
designer file that is not part of the sources; the spec calls the four buttons
"UI radio buttons", and radio buttons of one parent are exclusive in Qt, so
`setChecked(true)` on one of them unchecks the other three. -/
def Ui.setChecked (_u : Ui) (b : RadioButton) : Ui :=
  { btn_standard := decide (b = RadioButton.btn_standard),
    btn_logX := decide (b = RadioButton.btn_logX),
    btn_logY := decide (b = RadioButton.btn_logY),
    btn_loglog := decide (b = RadioButton.btn_loglog) }

/-- The state of the widget: the member variables of `SimFigure`, the plot
surface it owns, and the ghost fields that record effects (`heapNext` is the
address the next `new` returns). -/
structure SimFigure where
  ui : Ui
  m_plot : QwtPlot
  m_grid : Option Ptr
  m_legend : Option Ptr
  m_curves : List Ptr
  m_plotInvMap : List (Ptr × Int)
  lastSelection : Selection
  axisType : AxisType
  m_showMajorGrid : Bool
  m_showMinorGrid : Bool
  m_xmin : ℚ
  m_xmax : ℚ
  m_ymin : ℚ
  m_ymax : ℚ
  heapNext : Ptr
  emitted : List Int
  rescaleCalls : Nat
  warnings : Nat

/-- The macro `MAX(vec)`: the largest element of a non-empty vector. -/
def MAX : List ℚ → ℚ
  | [] => 0
  | h :: t => t.foldl max h

/-- The macro `MIN(vec)`: the smallest element of a non-empty vector. -/
def MIN : List ℚ → ℚ
  | [] => 0
  | h :: t => t.foldl min h

/-- The method `QList::value(i)`: the element at index `i`, or the default
value (`nullptr`) when `i` is out of bounds. -/
def QList.value (l : List Ptr) (i : Int) : Option Ptr :=
  if i < 0 then none else l.get? i.toNat

/-- The method `QMap::insert(key, value)`; an existing entry of the key is
replaced. -/
def QMap.insert (m : List (Ptr × Int)) (k : Ptr) (v : Int) : List (Ptr × Int) :=
  (k, v) :: m.filter (fun e => e.1 != k)

/-- The method `QMap::value(key, defaultValue)`. -/
def QMap.value (m : List (Ptr × Int)) (k : Ptr) (dflt : Int) : Int :=
  match m.find? (fun e => e.1 == k) with
  | some e => e.2
  | none => dflt

/-- The private overload `setLineStyle(QwtPlotCurve *curve, LineType lt)`. -/
def SimFigure.setLineStyleCurve (curve : QwtPlotItem) (lt : LineType) : QwtPlotItem :=
  let pen := curve.pen.setWidth 2
  let pen := match lt with
    | LineType.None => pen.setStyle PenStyle.NoPen
    | LineType.Solid => pen.setStyle PenStyle.SolidLine
    | LineType.Dashed => pen.setStyle PenStyle.DashLine
    | LineType.Dotted => pen.setStyle PenStyle.DotLine
    | LineType.DashDotted => pen.setStyle PenStyle.DashDotLine
  { curve with pen := pen }

/-- The private overload `setMarker(QwtPlotCurve *curve, Marker mk)`. -/
def SimFigure.setMarkerCurve (curve : QwtPlotItem) (mk : Marker) : QwtPlotItem :=
  match mk with
  | Marker.None => { curve with symbol := none }
  | Marker.Ex => { curve with symbol := some SymbolStyle.XCross }
  | Marker.Box => { curve with symbol := some SymbolStyle.Rect }
  | Marker.Plus => { curve with symbol := some SymbolStyle.Cross }
  | Marker.Circle => { curve with symbol := some SymbolStyle.Ellipse }
  | Marker.Asterisk => { curve with symbol := some SymbolStyle.Star1 }
  | Marker.Triangle => { curve with symbol := some SymbolStyle.Triangle }
  | Marker.DownTriangle => { curve with symbol := some SymbolStyle.DTriangle }
  | Marker.LeftTriangle => { curve with symbol := some SymbolStyle.LTriangle }
  | Marker.RightTriangle => { curve with symbol := some SymbolStyle.RTriangle }

/-- The private overload `setLineColor(QwtPlotCurve *curve, QColor color)`. -/
def SimFigure.setLineColorCurve (curve : QwtPlotItem) (color : QColor) : QwtPlotItem :=
  { curve with pen := curve.pen.setColor color }

/-- The private method `rescale()`. -/
def SimFigure.rescale (f : SimFigure) : SimFigure :=
  let plot :=
    if f.m_curves.length > 0 then
      (f.m_plot.setAxisScale Axis.yLeft f.m_ymin f.m_ymax).setAxisScale Axis.xBottom f.m_xmin f.m_xmax
    else
      (f.m_plot.setAxisScale Axis.yLeft 1 100).setAxisScale Axis.xBottom 1 100
  { f with m_plot := plot, rescaleCalls := f.rescaleCalls + 1 }

/-- The method `plot(x, y, lt, color, mk)`; the second component is the
returned handle. -/
def SimFigure.plot (f : SimFigure) (x y : List ℚ) (lt : LineType) (color : QColor)
    (mk : Marker) : SimFigure × Int :=
  if (x.length : Int) ≤ 0 ∨ (y.length : Int) ≤ 0 then (f, -1)
  else
    let f := if MAX x > f.m_xmax then { f with m_xmax := MAX x } else f
    let f := if MIN x < f.m_xmin then { f with m_xmin := MIN x } else f
    let f := if MAX y > f.m_ymax then { f with m_ymax := MAX y } else f
    let f := if MIN y < f.m_ymin then { f with m_ymin := MIN y } else f
    let curve := (QwtPlotItem.newCurve f.heapNext).setSamples x y
    let curve := SimFigure.setLineStyleCurve curve lt
    let curve := SimFigure.setMarkerCurve curve mk
    let curve := SimFigure.setLineColorCurve curve color
    let f := { f with heapNext := f.heapNext + 1, m_plot := f.m_plot.attach curve }
    let f := { f with m_curves := f.m_curves ++ [curve.addr] }
    let f := f.rescale
    let f := { f with m_plot := f.m_plot.replot }
    let idx : Int := (f.m_curves.length : Int)
    ({ f with m_plotInvMap := QMap.insert f.m_plotInvMap curve.addr idx }, idx)

/-- The private method `refreshGrid()`.  The new grid is attached with z value 10
and then moved by `setZ(1)`, which takes it out of the item list and inserts it
again; the record is inserted once, with its final z value. -/
def SimFigure.refreshGrid (f : SimFigure) : SimFigure :=
  let f := match f.m_grid with
    | some g => { f with m_plot := f.m_plot.detach g, m_grid := none }
    | none => f
  let f :=
    if f.m_showMajorGrid then
      let g := f.heapNext
      let grid : QwtPlotItem :=
        { QwtPlotItem.newGrid g with
          pen := QPen.ofColorWidth QColor.darkGray (4 / 5),
          minorPen := QPen.ofColorWidth QColor.lightGray (1 / 2),
          z := 1, xEnabled := true, yEnabled := true,
          xMinEnabled := f.m_showMinorGrid, yMinEnabled := f.m_showMinorGrid }
      let plot := f.m_plot.attach grid
      let plot := match f.axisType with
        | AxisType.Default =>
          (plot.setAxisScaleEngine Axis.xBottom ScaleEngine.QwtLinearScaleEngine).setAxisScaleEngine
            Axis.yLeft ScaleEngine.QwtLinearScaleEngine
        | AxisType.LogX =>
          (plot.setAxisScaleEngine Axis.xBottom ScaleEngine.QwtLogScaleEngine).setAxisScaleEngine
            Axis.yLeft ScaleEngine.QwtLinearScaleEngine
        | AxisType.LogY =>
          (plot.setAxisScaleEngine Axis.xBottom ScaleEngine.QwtLinearScaleEngine).setAxisScaleEngine
            Axis.yLeft ScaleEngine.QwtLogScaleEngine
        | AxisType.LogLog =>
          (plot.setAxisScaleEngine Axis.xBottom ScaleEngine.QwtLogScaleEngine).setAxisScaleEngine
            Axis.yLeft ScaleEngine.QwtLogScaleEngine
      { f with heapNext := g + 1, m_grid := some g, m_plot := plot }
    else f
  { f with m_plot := f.m_plot.replot }

/-- The method `grid(major, minor)`. -/
def SimFigure.grid (f : SimFigure) (major minor : Bool) : SimFigure :=
  SimFigure.refreshGrid { f with m_showMajorGrid := major, m_showMinorGrid := minor }

/-- One branch body of `axisTypeChanged()`: the axis type is recorded, the two
scale engines are installed, then `rescale()` and `m_plot->replot()` run. -/
def SimFigure.switchAxes (f : SimFigure) (t : AxisType) (yEngine xEngine : ScaleEngine) :
    SimFigure :=
  let f := { f with axisType := t }
  let f := { f with m_plot :=
    (f.m_plot.setAxisScaleEngine Axis.yLeft yEngine).setAxisScaleEngine Axis.xBottom xEngine }
  let f := f.rescale
  { f with m_plot := f.m_plot.replot }

/-- The slot `axisTypeChanged()`. -/
def SimFigure.axisTypeChanged (f : SimFigure) : SimFigure :=
  let f :=
    if f.ui.btn_standard then
      if f.axisType ≠ AxisType.Default then
        f.switchAxes AxisType.Default ScaleEngine.QwtLinearScaleEngine ScaleEngine.QwtLinearScaleEngine
      else f
    else if f.ui.btn_logX then
      if f.axisType ≠ AxisType.LogX then
        f.switchAxes AxisType.LogX ScaleEngine.QwtLinearScaleEngine ScaleEngine.QwtLogScaleEngine
      else f
    else if f.ui.btn_logY then
      if f.axisType ≠ AxisType.LogY then
        f.switchAxes AxisType.LogY ScaleEngine.QwtLogScaleEngine ScaleEngine.QwtLinearScaleEngine
      else f
    else if f.ui.btn_loglog then
      if f.axisType ≠ AxisType.LogLog then
        let plot := f.m_plot.setAxisMaxMajor Axis.yLeft 6
        let plot := plot.setAxisMaxMinor Axis.yLeft 9
        let plot := plot.setAxisMaxMajor Axis.xBottom 6
        let plot := plot.setAxisMaxMinor Axis.xBottom 9
        SimFigure.switchAxes { f with m_plot := plot } AxisType.LogLog
          ScaleEngine.QwtLogScaleEngine ScaleEngine.QwtLogScaleEngine
      else f
    else f
  f.grid true true

/-- The method `setAxisType(type)`. -/
def SimFigure.setAxisType (f : SimFigure) (type : AxisType) : SimFigure :=
  let f := { f with axisType := type }
  let f := match f.axisType with
    | AxisType.LogX => { f with ui := f.ui.setChecked RadioButton.btn_logX }
    | AxisType.LogY => { f with ui := f.ui.setChecked RadioButton.btn_logY }
    | AxisType.LogLog => { f with ui := f.ui.setChecked RadioButton.btn_loglog }
    | AxisType.Default => { f with ui := f.ui.setChecked RadioButton.btn_standard }
  f.axisTypeChanged

/-- The `foreach` loop of `cla()` over the curve list `l`, started in state `f`:
each curve is detached and deleted, and the handle map is cleared. -/
def SimFigure.claLoop (f : SimFigure) (l : List Ptr) : SimFigure :=
  l.foldl (fun g curve => { g with m_plot := g.m_plot.detach curve, m_plotInvMap := [] }) f

/-- The method `cla()`. -/
def SimFigure.cla (f : SimFigure) : SimFigure :=
  let f := f.claLoop f.m_curves
  let f := { f with m_curves := [] }
  let f := { f with lastSelection := { f.lastSelection with object := none, plotID := -1 } }
  let f := { f with m_xmin := 10 ^ 20, m_xmax := 1 / 10 ^ 20,
                    m_ymin := 10 ^ 20, m_ymax := 1 / 10 ^ 20 }
  let f := { f with m_plot := f.m_plot.replot }
  { f with emitted := f.emitted ++ [-1] }

/-- The method `clear()`. -/
def SimFigure.clear (f : SimFigure) : SimFigure := f.cla

/-- The function `QPointF::dotProduct`. -/
def dotProduct (a b : ℚ × ℚ) : ℚ := a.1 * b.1 + a.2 * b.2

/-- The sample `curveItem->sample(line)` in device coordinates: the point
`(canvasMap(xBottom).transform(pnt.x()), canvasMap(yLeft).transform(pnt.y()))`. -/
def QwtPlot.toDevice (p : QwtPlot) (pnt : ℚ × ℚ) : ℚ × ℚ :=
  ((p.canvasMap Axis.xBottom).transform pnt.1, (p.canvasMap Axis.yLeft).transform pnt.2)

/-- The body of the loop over `line` in `itemAt`, for the segment from sample
`pnt0` to sample `pnt1`.  `dist` is the square of the variable `dist` of the
source; the result is the square of its value after the iteration.  The
perpendicular distance `|r . t|`, with `t = (-s.y, s.x) / sqrt(s2)`, has the
square `(r . (-s.y, s.x))^2 / s2`.  The arithmetic is exact: the rounding of the
double-precision operations and of `sqrt` is not represented, and the constant
`1e-6` is the rational `1 / 1000000`. -/
def QwtPlot.segmentDist (p : QwtPlot) (pos : ℤ × ℤ) (dist : ℚ) (pnt0 pnt1 : ℚ × ℚ) : ℚ :=
  let x0 := p.toDevice pnt0
  let x1 := p.toDevice pnt1
  let r : ℚ × ℚ := ((pos.1 : ℚ) - x0.1, (pos.2 : ℚ) - x0.2)
  let s : ℚ × ℚ := (x1.1 - x0.1, x1.2 - x0.2)
  let s2 := dotProduct s s
  if s2 > 1 / 1000000 then
    let xi := dotProduct r s / s2
    if 0 ≤ xi ∧ xi ≤ 1 then
      let d1 := (dotProduct r (-s.2, s.1)) ^ 2 / s2
      if d1 < dist then d1 else dist
    else dist
  else
    let dist := dotProduct r r
    let d2 := dotProduct r r
    if d2 < dist then d2 else dist

/-- The consecutive sample pairs `(sample(line), sample(line + 1))` for `line`
from `0` to `dataSize() - 2`.  Every curve made by `plot()` has at least one
sample; for a curve without samples the unsigned bound `dataSize() - 1` of the
source wraps around and the source reads outside the data. -/
def QwtPlotItem.segments (c : QwtPlotItem) : List ((ℚ × ℚ) × (ℚ × ℚ)) :=
  List.zip c.samples c.samples.tail

/-- The loop over `line` in `itemAt`: the square of the final value of `dist`,
which starts at `1000`.  This is the distance the source compares with `5`. -/
def QwtPlot.curveDist (p : QwtPlot) (pos : ℤ × ℤ) (c : QwtPlotItem) : ℚ :=
  c.segments.foldl (fun dist seg => p.segmentDist pos dist seg.1 seg.2) 1000000

/-- The array `coords` of `itemAt`, read at an axis: the inverse canvas map of the
axis applied to `pos.x()` for the two x axes and to `pos.y()` for the two y
axes. -/
def QwtPlot.coords (p : QwtPlot) (pos : ℤ × ℤ) (ax : Axis) : ℚ :=
  match ax with
  | Axis.xBottom => (p.canvasMap Axis.xBottom).invTransform (pos.1 : ℚ)
  | Axis.xTop => (p.canvasMap Axis.xTop).invTransform (pos.1 : ℚ)
  | Axis.yLeft => (p.canvasMap Axis.yLeft).invTransform (pos.2 : ℚ)
  | Axis.yRight => (p.canvasMap Axis.yRight).invTransform (pos.2 : ℚ)

/-- The loop over the items in `itemAt`.  The argument lists the items in the
order in which they are examined, i.e. from the last item of the item list to
the first.  A curve is returned when `dist <= 5`, i.e. when the square is at
most `25`. -/
def QwtPlot.itemAtLoop (p : QwtPlot) (pos : ℤ × ℤ) : List QwtPlotItem → Option Ptr
  | [] => none
  | item :: rest =>
    if item.visible ∧ item.rtti = Rtti.Rtti_PlotCurve ∧ p.curveDist pos item ≤ 25 then
      some item.addr
    else if item.visible ∧ item.rtti = Rtti.Rtti_PlotShape
        ∧ item.shapeHit (p.coords pos item.xAxis, p.coords pos item.yAxis) = true then
      some item.addr
    else QwtPlot.itemAtLoop p pos rest

/-- The private method `itemAt(pos)`.  The member `m_plot` is set by the
constructor and never reset, so the guard `m_plot == nullptr` is never taken. -/
def SimFigure.itemAt (f : SimFigure) (pos : ℤ × ℤ) : Option Ptr :=
  f.m_plot.itemAtLoop pos f.m_plot.itemList.reverse

/-- The method `clearSelection()`. -/
def SimFigure.clearSelection (f : SimFigure) : SimFigure :=
  let f := match f.lastSelection.object with
    | some lastCurve =>
      let plot := f.m_plot.updateItem lastCurve (fun c => { c with pen := f.lastSelection.pen })
      let plot := plot.updateItem lastCurve (fun c => { c with brush := f.lastSelection.brush })
      let f := { f with m_plot := plot }
      let f := { f with lastSelection := { f.lastSelection with object := none, plotID := -1 } }
      { f with m_plot := f.m_plot.replot }
    | none => f
  { f with emitted := f.emitted ++ [-1] }

/-- The private overload `select(QwtPlotItem *item)`. -/
def SimFigure.selectItem (f : SimFigure) (item : Option Ptr) : SimFigure :=
  let f := f.clearSelection
  match item with
  | some theCurve =>
    let f := { f with lastSelection :=
      { object := some theCurve,
        plotID := QMap.value f.m_plotInvMap theCurve (-1),
        pen := f.m_plot.penOf theCurve,
        brush := f.m_plot.brushOf theCurve } }
    let f := { f with m_plot :=
      f.m_plot.updateItem theCurve (fun c => { c with pen := QPen.ofColorWidth QColor.cyan 4 }) }
    let ID := QMap.value f.m_plotInvMap theCurve (-1)
    let f := { f with m_plot := f.m_plot.replot }
    { f with emitted := f.emitted ++ [ID] }
  | none => f

/-- The method `select(int ID)`. -/
def SimFigure.select (f : SimFigure) (ID : Int) : SimFigure :=
  let theItem : Option Ptr :=
    if ID > 0 ∧ (f.m_curves.length : Int) ≥ ID ∧ QList.value f.m_curves (ID - 1) ≠ none then
      QList.value f.m_curves (ID - 1)
    else none
  match theItem with
  | some it => f.selectItem (some it)
  | none => f

/-- The guard shared by the per-curve getters and setters:
`ID > 0 && m_curves.length() <= ID && m_curves.value(ID-1) != nullptr`. -/
def SimFigure.handleGuard (f : SimFigure) (ID : Int) : Bool :=
  decide (ID > 0 ∧ (f.m_curves.length : Int) ≤ ID ∧ QList.value f.m_curves (ID - 1) ≠ none)

/-- The method `lineWidth(int ID)`. -/
def SimFigure.lineWidth (f : SimFigure) (ID : Int) : Int :=
  match f.handleGuard ID, QList.value f.m_curves (ID - 1) with
  | true, some c => (f.m_plot.penOf c).width
  | _, _ => 0

/-- The method `lineWidthF(int ID)`. -/
def SimFigure.lineWidthF (f : SimFigure) (ID : Int) : ℚ :=
  match f.handleGuard ID, QList.value f.m_curves (ID - 1) with
  | true, some c => (f.m_plot.penOf c).widthF
  | _, _ => 0

/-- The overload `setLineWidth(int ID, int wd)`. -/
def SimFigure.setLineWidth (f : SimFigure) (ID : Int) (wd : Int) : SimFigure :=
  match f.handleGuard ID, QList.value f.m_curves (ID - 1) with
  | true, some c =>
    let pen := (f.m_plot.penOf c).setWidth wd
    { f with m_plot := f.m_plot.updateItem c (fun it => { it with pen := pen }) }
  | _, _ => f

/-- The overload `setLineWidth(int ID, double wd)`. -/
def SimFigure.setLineWidthF (f : SimFigure) (ID : Int) (wd : ℚ) : SimFigure :=
  match f.handleGuard ID, QList.value f.m_curves (ID - 1) with
  | true, some c =>
    let pen := (f.m_plot.penOf c).setWidthF wd
    { f with m_plot := f.m_plot.updateItem c (fun it => { it with pen := pen }) }
  | _, _ => f

/-- The overload `setLineStyle(int ID, LineType lt, Marker mk)`. -/
def SimFigure.setLineStyle (f : SimFigure) (ID : Int) (lt : LineType) (mk : Marker) :
    SimFigure :=
  match f.handleGuard ID, QList.value f.m_curves (ID - 1) with
  | true, some c =>
    let plot := f.m_plot.updateItem c (fun it => SimFigure.setLineStyleCurve it lt)
    { f with m_plot := plot.updateItem c (fun it => SimFigure.setMarkerCurve it mk) }
  | _, _ => f

/-- The overload `setMarker(int ID, Marker mk)`. -/
def SimFigure.setMarker (f : SimFigure) (ID : Int) (mk : Marker) : SimFigure :=
  match f.handleGuard ID, QList.value f.m_curves (ID - 1) with
  | true, some c =>
    { f with m_plot := f.m_plot.updateItem c (fun it => SimFigure.setMarkerCurve it mk) }
  | _, _ => f

/-- The overload `setLineColor(int ID, QColor color)`. -/
def SimFigure.setLineColor (f : SimFigure) (ID : Int) (color : QColor) : SimFigure :=
  match f.handleGuard ID, QList.value f.m_curves (ID - 1) with
  | true, some c =>
    { f with m_plot := f.m_plot.updateItem c (fun it => SimFigure.setLineColorCurve it color) }
  | _, _ => f

/-- The run-time type tag `item->rtti()` read through a pointer. -/
def QwtPlot.rttiOf (p : QwtPlot) (a : Ptr) : Option Rtti :=
  (p.item a).map (fun it => it.rtti)

/-- The slot `on_picker_appended(pos)`. -/
def SimFigure.on_picker_appended (f : SimFigure) (pos : ℤ × ℤ) : SimFigure :=
  match f.itemAt pos with
  | some item =>
    let f :=
      if f.m_plot.rttiOf item = some Rtti.Rtti_PlotShape then
        let plot := f.m_plot.updateItem item
          (fun it => { it with pen := QPen.ofColorWidth QColor.cyan 4 })
        let plot := plot.updateItem item
          (fun it => { it with brush := { it.brush with color := { it.brush.color with alpha := 64 } } })
        { f with m_plot := plot }
      else f
    let f :=
      if f.m_plot.rttiOf item = some Rtti.Rtti_PlotCurve then
        if f.lastSelection.object ≠ some item then
          let f := if f.lastSelection.object ≠ none then f.clearSelection else f
          f.selectItem (some item)
        else f
      else f
    { f with m_plot := f.m_plot.replot }
  | none => { f with warnings := f.warnings + 1 }

/-! ## Observations used in the statements -/

/-- Number of curve items attached to a plot surface. -/
def QwtPlot.curveCount (p : QwtPlot) : Nat :=
  (p.itemList.filter (fun it => decide (it.rtti = Rtti.Rtti_PlotCurve))).length

/-- The click position as a point with real coordinates (`QPointF(pos)`). -/
def clickPoint (pos : ℤ × ℤ) : ℚ × ℚ := ((pos.1 : ℚ), (pos.2 : ℚ))

/-- Square of the Euclidean distance between two points. -/
def distSq (q a : ℚ × ℚ) : ℚ := (q.1 - a.1) ^ 2 + (q.2 - a.2) ^ 2

/-- The point `a + t (b - a)` of the line through `a` and `b`. -/
def pointOn (a b : ℚ × ℚ) (t : ℚ) : ℚ × ℚ := (a.1 + t * (b.1 - a.1), a.2 + t * (b.2 - a.2))

/-- The projection parameter of `q` on the line through `a` and `b`: the `t` for
which `pointOn a b t` is the foot of the perpendicular from `q` (`0` when `a`
and `b` coincide). -/
def projection (q a b : ℚ × ℚ) : ℚ :=
  if distSq b a = 0 then 0
  else ((q.1 - a.1) * (b.1 - a.1) + (q.2 - a.2) * (b.2 - a.2)) / distSq b a

/-- Square of the Euclidean distance from the point `q` to the segment from `a` to
`b`: the squared distance from `q` to the nearest point of the segment, which is
the point at the projection parameter clamped to `[0, 1]`. -/
def segmentDistSq (q a b : ℚ × ℚ) : ℚ :=
  distSq q (pointOn a b (max 0 (min 1 (projection q a b))))

/-- The segments of a curve in device coordinates. -/
def QwtPlot.deviceSegments (p : QwtPlot) (c : QwtPlotItem) : List ((ℚ × ℚ) × (ℚ × ℚ)) :=
  c.segments.map (fun seg => (p.toDevice seg.1, p.toDevice seg.2))

/-- Whether the item loop of `itemAt` returns the item `item` when it examines
it: a visible curve with `dist <= 5`, or a visible shape that contains the
click point. -/
def QwtPlot.hits (p : QwtPlot) (pos : ℤ × ℤ) (item : QwtPlotItem) : Bool :=
  decide (item.visible ∧ item.rtti = Rtti.Rtti_PlotCurve ∧ p.curveDist pos item ≤ 25)
  || decide (item.visible ∧ item.rtti = Rtti.Rtti_PlotShape
      ∧ item.shapeHit (p.coords pos item.xAxis, p.coords pos item.yAxis) = true)

/-! ## Example states -/

/-- The identity scale map: device coordinates equal plot coordinates. -/
def QwtScaleMap.identity : QwtScaleMap := ⟨fun v => v, fun v => v⟩

/-- A plot surface without items, linear axes from 1 to 100. -/
def QwtPlot.blank : QwtPlot :=
  { itemList := [], axisScaleEngine := fun _ => ScaleEngine.QwtLinearScaleEngine,
    axisScale := fun _ => (1, 100), axisMaxMajor := fun _ => 8, axisMaxMinor := fun _ => 5,
    canvasMap := fun _ => QwtScaleMap.identity, replotCalls := 0 }

/-- A figure without curves, grid or selection, as `cla()` leaves it. -/
def SimFigure.blank : SimFigure :=
  { ui := ⟨true, false, false, false⟩, m_plot := QwtPlot.blank, m_grid := none,
    m_legend := none, m_curves := [], m_plotInvMap := [],
    lastSelection := ⟨none, -1, QPen.default, QBrush.default⟩,
    axisType := AxisType.Default, m_showMajorGrid := false, m_showMinorGrid := false,
    m_xmin := 10 ^ 20, m_xmax := 1 / 10 ^ 20, m_ymin := 10 ^ 20, m_ymax := 1 / 10 ^ 20,
    heapNext := 1, emitted := [], rescaleCalls := 0, warnings := 0 }

/-- An example curve item: the curve at address `a` with pen `pen` through the
points `samples`, as `plot()` builds it without a marker. -/
def QwtPlotItem.line (a : Ptr) (pen : QPen) (samples : List (ℚ × ℚ)) : QwtPlotItem :=
  { QwtPlotItem.newCurve a with pen := pen, samples := samples }

/-- The example figure after one call of `plot()`: a horizontal curve from
`(0, 0)` to `(10, 0)`, at address 1 with handle 1. -/
def SimFigure.oneCurve : SimFigure :=
  (SimFigure.blank.plot [0, 10] [0, 0] LineType.Solid QColor.black Marker.None).1

/-- The example figure after a second call of `plot()`: a second horizontal curve
from `(0, 10)` to `(10, 10)`, at address 2 with handle 2. -/
def SimFigure.twoCurves : SimFigure :=
  (SimFigure.oneCurve.plot [0, 10] [10, 10] LineType.Dashed QColor.cyan Marker.None).1

/-- The figure `twoCurves` after `select(1)`: the first curve is the selection. -/
def SimFigure.firstSelected : SimFigure := SimFigure.twoCurves.select 1

/-! ## Sequences of calls -/

/-- The calls of the widget that may follow a `cla()` in a trace: every embedded
member function and slot other than `cla()` and `clear()`. -/
inductive Call where
  | plot (x y : List ℚ) (lt : LineType) (color : QColor) (mk : Marker)
  | select (ID : Int)
  | clearSelection
  | setLineWidth (ID : Int) (wd : Int)
  | setLineWidthF (ID : Int) (wd : ℚ)
  | setLineStyle (ID : Int) (lt : LineType) (mk : Marker)
  | setMarker (ID : Int) (mk : Marker)
  | setLineColor (ID : Int) (color : QColor)
  | setAxisType (type : AxisType)
  | axisTypeChanged
  | grid (major minor : Bool)
  | on_picker_appended (pos : ℤ × ℤ)

/-- The figure state after one call. -/
def SimFigure.call (f : SimFigure) : Call → SimFigure
  | Call.plot x y lt color marker => (f.plot x y lt color marker).1
  | Call.select ID => f.select ID
  | Call.clearSelection => f.clearSelection
  | Call.setLineWidth ID wd => f.setLineWidth ID wd
  | Call.setLineWidthF ID wd => f.setLineWidthF ID wd
  | Call.setLineStyle ID lt marker => f.setLineStyle ID lt marker
  | Call.setMarker ID marker => f.setMarker ID marker
  | Call.setLineColor ID color => f.setLineColor ID color
  | Call.setAxisType type => f.setAxisType type
  | Call.axisTypeChanged => f.axisTypeChanged
  | Call.grid major minor => f.grid major minor
  | Call.on_picker_appended pos => f.on_picker_appended pos

/-- The figure state after a sequence of calls. -/
def SimFigure.run (f : SimFigure) (cs : List Call) : SimFigure :=
  cs.foldl SimFigure.call f

/-- The handles that the calls of `plot()` in a sequence of calls return for the
curves they create, each with the address of its curve (the address `new`
returns in that call).  A call of `plot()` that returns the failure value -1
creates no curve and contributes nothing. -/
def SimFigure.plotted : SimFigure → List Call → List (Int × Ptr)
  | _, [] => []
  | f, Call.plot x y lt color marker :: cs =>
    if (f.plot x y lt color marker).2 = -1 then
      SimFigure.plotted (f.plot x y lt color marker).1 cs
    else
      ((f.plot x y lt color marker).2, f.heapNext)
        :: SimFigure.plotted (f.plot x y lt color marker).1 cs
  | f, c :: cs => SimFigure.plotted (f.call c) cs

/-- The handle bookkeeping of `g` is that of `f`: same curve list, same handle
map, and no address was given back. -/
def SimFigure.sameHandles (f g : SimFigure) : Prop :=
  g.m_curves = f.m_curves ∧ g.m_plotInvMap = f.m_plotInvMap ∧ f.heapNext ≤ g.heapNext

/-- The handle bookkeeping is consistent: every curve of the curve list has an
address below the next free address, and the handle map sends the curve at
position `i` to the handle `i + 1`. -/
def SimFigure.handlesConsistent (f : SimFigure) : Prop :=
  (∀ a ∈ f.m_curves, a < f.heapNext)
  ∧ (∀ (i : Nat) (a : Ptr), f.m_curves.get? i = some a →
      QMap.value f.m_plotInvMap a (-1) = (i : Int) + 1)

/-! ## The tracked minimum, and more example states -/

/-- The per-segment distance in the words of the hit-test description, as a square:
the perpendicular distance when the segment is not degenerate and the
projection parameter lies in `[0, 1]`, the point distance to the first end
point for a degenerate segment (squared length at most `1e-6`), and no distance
for a segment whose projection parameter lies outside `[0, 1]`. -/
def segmentDistance (q a b : ℚ × ℚ) : Option ℚ :=
  if distSq b a > 1 / 1000000 then
    if 0 ≤ projection q a b ∧ projection q a b ≤ 1 then some (segmentDistSq q a b) else none
  else some (distSq q a)

/-- The minimum over all segments of a curve of the per-segment distance (as a
square), tracked from the start value `1000` of the source. -/
def QwtPlot.minSegmentDist (p : QwtPlot) (pos : ℤ × ℤ) (c : QwtPlotItem) : ℚ :=
  (p.deviceSegments c).foldl
    (fun m seg =>
      match segmentDistance (clickPoint pos) seg.1 seg.2 with
      | some d => min m d
      | none => m)
    1000000

/-- The example figure after `plot()` of a curve whose last sample is repeated:
the points `(0, 0)`, `(10, 0)`, `(10, 0)`. -/
def SimFigure.repeatedSample : SimFigure :=
  (SimFigure.blank.plot [0, 10, 10] [0, 0, 0] LineType.Solid QColor.black Marker.None).1

theorem insertItem_filter_length (q : QwtPlotItem → Bool) (it : QwtPlotItem) :
    ∀ items : List QwtPlotItem,
      ((QwtPlot.insertItem items it).filter q).length
        = (items.filter q).length + (if q it then 1 else 0)
  | [] => by
    cases h : q it <;> simp [QwtPlot.insertItem, List.filter, h]
  | a :: t => by
    have ih := insertItem_filter_length q it t
    unfold QwtPlot.insertItem
    by_cases hz : it.z < a.z
    · cases h : q it <;> cases h2 : q a <;> simp [hz, List.filter, h, h2]
    · cases h : q it <;> cases h2 : q a <;> simp [hz, List.filter, h, h2, ih]

theorem plot_nonempty_eq (f : SimFigure) (x y : List ℚ) (lt : LineType) (color : QColor)
    (mk : Marker) (hx : x ≠ []) (hy : y ≠ []) :
    (f.plot x y lt color mk).2 = (f.m_curves.length : Int) + 1
    ∧ (f.plot x y lt color mk).1.m_curves = f.m_curves ++ [f.heapNext]
    ∧ (f.plot x y lt color mk).1.m_plot.curveCount = f.m_plot.curveCount + 1
    ∧ (f.plot x y lt color mk).1.heapNext = f.heapNext + 1 := by
  have hx0 : ¬ ((x.length : Int) ≤ 0) := by
    have : 0 < x.length := List.length_pos.mpr hx
    omega
  have hy0 : ¬ ((y.length : Int) ≤ 0) := by
    have : 0 < y.length := List.length_pos.mpr hy
    omega
  have hr : ∀ c : QwtPlotItem, (SimFigure.setLineColorCurve (SimFigure.setMarkerCurve
      (SimFigure.setLineStyleCurve c lt) mk) color).rtti = c.rtti := by
    intro c; cases mk <;> rfl
  have ha : ∀ c : QwtPlotItem, (SimFigure.setLineColorCurve (SimFigure.setMarkerCurve
      (SimFigure.setLineStyleCurve c lt) mk) color).addr = c.addr := by
    intro c; cases mk <;> rfl
  unfold SimFigure.plot
  simp only [hx0, hy0, or_self, if_false]
  refine ⟨?_, ?_, ?_, ?_⟩
  · split_ifs <;> simp [SimFigure.rescale]
  · split_ifs <;> simp [SimFigure.rescale, ha, QwtPlotItem.newCurve, QwtPlotItem.setSamples]
  · split_ifs <;>
      simp [SimFigure.rescale, QwtPlot.curveCount, QwtPlot.replot, QwtPlot.setAxisScale,
        QwtPlot.attach, insertItem_filter_length, hr, QwtPlotItem.newCurve,
        QwtPlotItem.setSamples]
  · split_ifs <;> simp [SimFigure.rescale]

theorem claLoop_fields (l : List Ptr) : ∀ f : SimFigure,
    (f.claLoop l).m_curves = f.m_curves
    ∧ (f.claLoop l).lastSelection = f.lastSelection
    ∧ (f.claLoop l).emitted = f.emitted
    ∧ (f.claLoop l).m_plot.itemList
        = f.m_plot.itemList.filter (fun it => decide (it.addr ∉ l)) := by
  induction l with
  | nil => intro f; simp [SimFigure.claLoop]
  | cons a t ih =>
    intro f
    obtain ⟨h1, h2, h3, h4⟩ := ih { f with m_plot := f.m_plot.detach a, m_plotInvMap := [] }
    simp only [SimFigure.claLoop, List.foldl_cons] at h1 h2 h3 h4 ⊢
    refine ⟨h1, h2, h3, ?_⟩
    rw [h4]
    simp only [QwtPlot.detach, List.filter_filter]
    apply List.filter_congr
    intro it _
    by_cases hia : it.addr = a <;> simp [hia]

/-! ## Lemmas on item pointers -/

theorem find_updateItem (a b : Ptr) (g : QwtPlotItem → QwtPlotItem)
    (hg : ∀ it, (g it).addr = it.addr) : ∀ items : List QwtPlotItem,
    (items.map (fun it => if it.addr == a then g it else it)).find? (fun it => it.addr == b)
      = (items.find? (fun it => it.addr == b)).map (fun it => if it.addr == a then g it else it)
  | [] => rfl
  | h :: t => by
    have ih := find_updateItem a b g hg t
    simp only [List.map_cons, List.find?_cons]
    cases ha : (h.addr == a)
    · cases hb : (h.addr == b)
      · simpa [hb] using ih
      · simp only [Bool.false_eq_true, if_false, hb, Option.map_some', ha]
    · have hga : ((g h).addr == b) = (h.addr == b) := by rw [hg]
      cases hb : (h.addr == b)
      · simpa [hb, hga] using ih
      · simp only [if_true, hga, hb, Option.map_some', ha]

theorem item_updateItem (p : QwtPlot) (a b : Ptr) (g : QwtPlotItem → QwtPlotItem)
    (hg : ∀ it, (g it).addr = it.addr) :
    (p.updateItem a g).item b = (p.item b).map (fun it => if it.addr == a then g it else it) := by
  simp only [QwtPlot.updateItem, QwtPlot.item]
  exact find_updateItem a b g hg p.itemList

theorem item_addr (p : QwtPlot) (a : Ptr) (it : QwtPlotItem) (h : p.item a = some it) :
    it.addr = a := by
  have := List.find?_some h
  simpa using this

theorem item_updateItem_other (p : QwtPlot) (a b : Ptr) (g : QwtPlotItem → QwtPlotItem)
    (hg : ∀ it, (g it).addr = it.addr) (hab : a ≠ b) :
    (p.updateItem a g).item b = p.item b := by
  rw [item_updateItem p a b g hg]
  cases h : p.item b with
  | none => rfl
  | some it =>
    have : it.addr = b := item_addr p b it h
    have hne : ¬ it.addr = a := by rw [this]; exact fun e => hab e.symm
    simp [hne]

theorem item_updateItem_same (p : QwtPlot) (a : Ptr) (g : QwtPlotItem → QwtPlotItem)
    (hg : ∀ it, (g it).addr = it.addr) :
    (p.updateItem a g).item a = (p.item a).map g := by
  rw [item_updateItem p a a g hg]
  cases h : p.item a with
  | none => rfl
  | some it =>
    have : it.addr = a := item_addr p a it h
    simp [this]

theorem item_replot (p : QwtPlot) (a : Ptr) : p.replot.item a = p.item a := rfl

theorem item_setPen_same (p : QwtPlot) (a : Ptr) (q : QPen) :
    (p.updateItem a (fun c => { c with pen := q })).item a
      = (p.item a).map (fun c => { c with pen := q }) :=
  item_updateItem_same p a (fun c => { c with pen := q }) (fun _ => rfl)

theorem item_setBrush_same (p : QwtPlot) (a : Ptr) (q : QBrush) :
    (p.updateItem a (fun c => { c with brush := q })).item a
      = (p.item a).map (fun c => { c with brush := q }) :=
  item_updateItem_same p a (fun c => { c with brush := q }) (fun _ => rfl)

theorem item_setPen_other (p : QwtPlot) (a b : Ptr) (q : QPen) (hab : a ≠ b) :
    (p.updateItem a (fun c => { c with pen := q })).item b = p.item b :=
  item_updateItem_other p a b (fun c => { c with pen := q }) (fun _ => rfl) hab

theorem item_setBrush_other (p : QwtPlot) (a b : Ptr) (q : QBrush) (hab : a ≠ b) :
    (p.updateItem a (fun c => { c with brush := q })).item b = p.item b :=
  item_updateItem_other p a b (fun c => { c with brush := q }) (fun _ => rfl) hab

/-! ## Lemmas on curve handles -/

theorem value_out_of_range (l : List Ptr) (ID : Int) (h : ID ≤ 0 ∨ ID > (l.length : Int)) :
    QList.value l (ID - 1) = none := by
  unfold QList.value
  rcases h with h | h
  · have : ID - 1 < 0 := by omega
    simp [this]
  · by_cases h0 : ID - 1 < 0
    · simp [h0]
    · simp only [h0, if_false]
      rw [List.get?_eq_none]
      omega

theorem handleGuard_out_of_range (f : SimFigure) (ID : Int)
    (h : ID ≤ 0 ∨ ID > (f.m_curves.length : Int)) : f.handleGuard ID = false := by
  unfold SimFigure.handleGuard
  simp [value_out_of_range f.m_curves ID h]

theorem handleGuard_older_handle (f : SimFigure) (ID : Int)
    (h : ID < (f.m_curves.length : Int)) : f.handleGuard ID = false := by
  unfold SimFigure.handleGuard
  have : ¬ ((f.m_curves.length : Int) ≤ ID) := by omega
  simp [this]

theorem oneCurve_fields :
    SimFigure.oneCurve.m_curves = [1] ∧ SimFigure.oneCurve.heapNext = 2 := by
  obtain ⟨-, h2, -, h4⟩ := plot_nonempty_eq SimFigure.blank [0, 10] [0, 0] LineType.Solid
    QColor.black Marker.None (by simp) (by simp)
  exact ⟨h2, h4⟩

theorem twoCurves_curves : SimFigure.twoCurves.m_curves = [1, 2] := by
  obtain ⟨-, h2, -, -⟩ := plot_nonempty_eq SimFigure.oneCurve [0, 10] [10, 10] LineType.Dashed
    QColor.cyan Marker.None (by simp) (by simp)
  unfold SimFigure.twoCurves
  rw [h2, oneCurve_fields.1, oneCurve_fields.2]
  rfl

/-! ## Lemmas on the example figures and on selection -/

theorem isSome_item_updateItem (p : QwtPlot) (a b : Ptr) (g : QwtPlotItem → QwtPlotItem)
    (hg : ∀ it, (g it).addr = it.addr) :
    ((p.updateItem a g).item b).isSome = (p.item b).isSome := by
  rw [item_updateItem p a b g hg]
  cases p.item b <;> rfl

theorem isSome_item_clearSelection (f : SimFigure) (a : Ptr) :
    (f.clearSelection.m_plot.item a).isSome = (f.m_plot.item a).isSome := by
  unfold SimFigure.clearSelection
  cases f.lastSelection.object with
  | none => rfl
  | some c =>
    simp only [item_replot]
    rw [isSome_item_updateItem _ c a (fun c => { c with brush := f.lastSelection.brush })
      (fun _ => rfl),
      isSome_item_updateItem _ c a (fun c => { c with pen := f.lastSelection.pen }) (fun _ => rfl)]

theorem isSome_item_selectItem (f : SimFigure) (it : Option Ptr) (a : Ptr) :
    ((f.selectItem it).m_plot.item a).isSome = (f.m_plot.item a).isSome := by
  unfold SimFigure.selectItem
  cases it with
  | none => exact isSome_item_clearSelection f a
  | some c =>
    simp only [item_replot]
    rw [isSome_item_updateItem _ c a (fun c => { c with pen := QPen.ofColorWidth QColor.cyan 4 })
      (fun _ => rfl)]
    exact isSome_item_clearSelection f a

theorem penOf_setPen_same (p : QwtPlot) (a : Ptr) (q : QPen) (h : (p.item a).isSome = true) :
    (p.updateItem a (fun it => { it with pen := q })).penOf a = q := by
  obtain ⟨c, hc⟩ := Option.isSome_iff_exists.mp h
  simp [QwtPlot.penOf, item_setPen_same, hc]

theorem twoCurves_live :
    (SimFigure.twoCurves.m_plot.item 1).isSome = true
    ∧ (SimFigure.twoCurves.m_plot.item 2).isSome = true := by
  norm_num [QwtPlot.item, SimFigure.twoCurves, SimFigure.oneCurve, SimFigure.plot,
    SimFigure.blank, QwtPlot.blank, MAX, MIN, SimFigure.rescale, QwtPlot.replot,
    QwtPlot.setAxisScale, QwtPlot.attach, QwtPlot.insertItem, QwtPlotItem.newCurve,
    QwtPlotItem.setSamples, SimFigure.setLineStyleCurve, SimFigure.setMarkerCurve,
    SimFigure.setLineColorCurve]

theorem firstSelected_facts :
    SimFigure.firstSelected.lastSelection.object = some 1
    ∧ (SimFigure.firstSelected.m_plot.item 1).isSome = true
    ∧ (SimFigure.firstSelected.m_plot.item 2).isSome = true := by
  have hc := twoCurves_curves
  have hs : SimFigure.firstSelected = SimFigure.twoCurves.selectItem (some 1) := by
    simp [SimFigure.firstSelected, SimFigure.select, hc, QList.value]
  refine ⟨?_, ?_, ?_⟩
  · rw [hs]; simp [SimFigure.selectItem]
  · rw [hs, isSome_item_selectItem]; exact twoCurves_live.1
  · rw [hs, isSome_item_selectItem]; exact twoCurves_live.2

theorem qRound_intCast (w : Int) : qRound (w : ℚ) = w := by
  unfold qRound
  rw [Int.floor_eq_iff]
  constructor <;> linarith

theorem lineWidth_setLineWidth_guarded (f : SimFigure) (ID : Int) (c : Ptr) (w : Int)
    (hg : f.handleGuard ID = true) (hv : QList.value f.m_curves (ID - 1) = some c)
    (hlive : (f.m_plot.item c).isSome = true) :
    (f.setLineWidth ID w).lineWidth ID = w := by
  have e : f.setLineWidth ID w = { f with
      m_plot := (f.m_plot.updateItem c (fun it => { it with pen := (f.m_plot.penOf c).setWidth w })) } := by
    simp only [SimFigure.setLineWidth, hg, hv]
  have hg2 : (f.setLineWidth ID w).handleGuard ID = true := by rw [e]; exact hg
  have hv2 : QList.value (f.setLineWidth ID w).m_curves (ID - 1) = some c := by rw [e]; exact hv
  simp only [SimFigure.lineWidth, hg2, hv2]
  rw [e]
  simp only [penOf_setPen_same _ _ _ hlive, QPen.width, QPen.setWidth, qRound_intCast]

/-! ## Lemmas on the hit test -/

theorem clamp_quadratic (p t : ℚ) (ht0 : 0 ≤ t) (ht1 : t ≤ 1) :
    (max 0 (min 1 p)) ^ 2 - 2 * (max 0 (min 1 p)) * p ≤ t ^ 2 - 2 * t * p := by
  rcases le_total p 0 with hp | hp
  · have : max 0 (min 1 p) = 0 := by
      rw [max_eq_left]; exact le_trans (min_le_right _ _) hp
    rw [this]; nlinarith [mul_nonneg ht0 ht0, mul_nonneg ht0 (neg_nonneg.mpr hp)]
  · rcases le_total p 1 with h1 | h1
    · have : max 0 (min 1 p) = p := by
        rw [min_eq_right h1, max_eq_right hp]
      rw [this]; nlinarith [sq_nonneg (t - p)]
    · have : max 0 (min 1 p) = 1 := by
        rw [min_eq_left h1, max_eq_right zero_le_one]
      rw [this]; nlinarith [mul_nonneg (sub_nonneg.mpr ht1) (sub_nonneg.mpr h1), mul_nonneg (sub_nonneg.mpr ht1) (sub_nonneg.mpr ht1)]

/-- The segment distance is the least distance from `q` to a point of the
segment. -/
theorem segmentDistSq_le (q a b : ℚ × ℚ) (t : ℚ) (ht0 : 0 ≤ t) (ht1 : t ≤ 1) :
    segmentDistSq q a b ≤ distSq q (pointOn a b t) := by
  unfold segmentDistSq
  by_cases hS : distSq b a = 0
  · have h1 : b.1 - a.1 = 0 := by
      unfold distSq at hS; nlinarith [sq_nonneg (b.1 - a.1), sq_nonneg (b.2 - a.2)]
    have h2 : b.2 - a.2 = 0 := by
      unfold distSq at hS; nlinarith [sq_nonneg (b.1 - a.1), sq_nonneg (b.2 - a.2)]
    simp [distSq, pointOn, h1, h2]
  · have hSpos : 0 < distSq b a := by
      have : 0 ≤ distSq b a := by unfold distSq; positivity
      exact lt_of_le_of_ne this (Ne.symm hS)
    have hp : (q.1 - a.1) * (b.1 - a.1) + (q.2 - a.2) * (b.2 - a.2)
        = projection q a b * distSq b a := by
      unfold projection; rw [if_neg hS]; field_simp
    have key := clamp_quadratic (projection q a b) t ht0 ht1
    have e : ∀ u : ℚ, distSq q (pointOn a b u)
        = distSq q a + distSq b a * (u ^ 2 - 2 * u * projection q a b) := by
      intro u
      have : distSq q (pointOn a b u) = distSq q a + u ^ 2 * distSq b a
          - 2 * u * ((q.1 - a.1) * (b.1 - a.1) + (q.2 - a.2) * (b.2 - a.2)) := by
        unfold distSq pointOn; ring
      rw [this, hp]; ring
    rw [e, e]
    have := mul_le_mul_of_nonneg_left key hSpos.le
    linarith

theorem segmentDist_eq (p : QwtPlot) (pos : ℤ × ℤ) (dist : ℚ) (pnt0 pnt1 : ℚ × ℚ) :
    p.segmentDist pos dist pnt0 pnt1 =
      if distSq (p.toDevice pnt1) (p.toDevice pnt0) > 1 / 1000000 then
        if 0 ≤ projection (clickPoint pos) (p.toDevice pnt0) (p.toDevice pnt1)
            ∧ projection (clickPoint pos) (p.toDevice pnt0) (p.toDevice pnt1) ≤ 1 then
          if segmentDistSq (clickPoint pos) (p.toDevice pnt0) (p.toDevice pnt1) < dist then
            segmentDistSq (clickPoint pos) (p.toDevice pnt0) (p.toDevice pnt1)
          else dist
        else dist
      else distSq (clickPoint pos) (p.toDevice pnt0) := by
  have hs2 : dotProduct ((p.toDevice pnt1).1 - (p.toDevice pnt0).1,
      (p.toDevice pnt1).2 - (p.toDevice pnt0).2) ((p.toDevice pnt1).1 - (p.toDevice pnt0).1,
      (p.toDevice pnt1).2 - (p.toDevice pnt0).2) = distSq (p.toDevice pnt1) (p.toDevice pnt0) := by
    unfold dotProduct distSq; ring
  have hrr : dotProduct ((pos.1 : ℚ) - (p.toDevice pnt0).1, (pos.2 : ℚ) - (p.toDevice pnt0).2)
      ((pos.1 : ℚ) - (p.toDevice pnt0).1, (pos.2 : ℚ) - (p.toDevice pnt0).2)
      = distSq (clickPoint pos) (p.toDevice pnt0) := by
    unfold dotProduct distSq clickPoint; ring
  unfold QwtPlot.segmentDist
  simp only [hs2, hrr, lt_irrefl, if_false]
  by_cases hd : distSq (p.toDevice pnt1) (p.toDevice pnt0) > 1 / 1000000
  · have hne : distSq (p.toDevice pnt1) (p.toDevice pnt0) ≠ 0 := by
      intro h; rw [h] at hd; norm_num at hd
    have hxi : dotProduct ((pos.1 : ℚ) - (p.toDevice pnt0).1, (pos.2 : ℚ) - (p.toDevice pnt0).2)
        ((p.toDevice pnt1).1 - (p.toDevice pnt0).1, (p.toDevice pnt1).2 - (p.toDevice pnt0).2)
          / distSq (p.toDevice pnt1) (p.toDevice pnt0)
        = projection (clickPoint pos) (p.toDevice pnt0) (p.toDevice pnt1) := by
      unfold projection; rw [if_neg hne]; rfl
    simp only [hd, if_true, hxi]
    by_cases hin : 0 ≤ projection (clickPoint pos) (p.toDevice pnt0) (p.toDevice pnt1)
        ∧ projection (clickPoint pos) (p.toDevice pnt0) (p.toDevice pnt1) ≤ 1
    · have hperp : dotProduct ((pos.1 : ℚ) - (p.toDevice pnt0).1, (pos.2 : ℚ) - (p.toDevice pnt0).2)
          (-((p.toDevice pnt1).2 - (p.toDevice pnt0).2), (p.toDevice pnt1).1 - (p.toDevice pnt0).1) ^ 2
            / distSq (p.toDevice pnt1) (p.toDevice pnt0)
          = segmentDistSq (clickPoint pos) (p.toDevice pnt0) (p.toDevice pnt1) := by
        unfold segmentDistSq
        rw [min_eq_right hin.2, max_eq_right hin.1]
        unfold projection
        rw [if_neg hne]
        unfold distSq at hne ⊢
        unfold dotProduct pointOn clickPoint
        field_simp
        ring
      simp only [hin, and_self, if_true, hperp]
    · simp only [hin, if_false]
  · simp only [hd, if_false]

theorem segmentDist_gt (p : QwtPlot) (pos : ℤ × ℤ) (dist : ℚ) (pnt0 pnt1 : ℚ × ℚ)
    (hdist : 25 < dist)
    (hfar : 25 < segmentDistSq (clickPoint pos) (p.toDevice pnt0) (p.toDevice pnt1)) :
    25 < p.segmentDist pos dist pnt0 pnt1 := by
  rw [segmentDist_eq]
  split_ifs
  · exact hfar
  · exact hdist
  · exact hdist
  · have h := segmentDistSq_le (clickPoint pos) (p.toDevice pnt0) (p.toDevice pnt1) 0
      le_rfl zero_le_one
    have e : pointOn (p.toDevice pnt0) (p.toDevice pnt1) 0 = p.toDevice pnt0 := by
      simp [pointOn]
    rw [e] at h
    exact lt_of_lt_of_le hfar h

theorem segmentDist_le (p : QwtPlot) (pos : ℤ × ℤ) (dist : ℚ) (pnt0 pnt1 : ℚ × ℚ)
    (hnd : distSq (p.toDevice pnt1) (p.toDevice pnt0) > 1 / 1000000) :
    p.segmentDist pos dist pnt0 pnt1 ≤ dist := by
  rw [segmentDist_eq, if_pos hnd]
  split_ifs with h1 h2
  · exact h2.le
  · exact le_rfl
  · exact le_rfl

theorem segmentDist_le_hit (p : QwtPlot) (pos : ℤ × ℤ) (dist : ℚ) (pnt0 pnt1 : ℚ × ℚ)
    (hnd : distSq (p.toDevice pnt1) (p.toDevice pnt0) > 1 / 1000000)
    (hin : 0 ≤ projection (clickPoint pos) (p.toDevice pnt0) (p.toDevice pnt1)
      ∧ projection (clickPoint pos) (p.toDevice pnt0) (p.toDevice pnt1) ≤ 1) :
    p.segmentDist pos dist pnt0 pnt1
      ≤ segmentDistSq (clickPoint pos) (p.toDevice pnt0) (p.toDevice pnt1) := by
  rw [segmentDist_eq, if_pos hnd, if_pos hin]
  split_ifs with h2
  · exact le_rfl
  · exact not_lt.mp h2

theorem foldl_segmentDist_gt (p : QwtPlot) (pos : ℤ × ℤ) :
    ∀ (segs : List ((ℚ × ℚ) × (ℚ × ℚ))) (dist : ℚ), 25 < dist →
      (∀ seg ∈ segs, 25 < segmentDistSq (clickPoint pos) (p.toDevice seg.1) (p.toDevice seg.2)) →
      25 < segs.foldl (fun dist seg => p.segmentDist pos dist seg.1 seg.2) dist
  | [], dist, hd, _ => hd
  | seg :: t, dist, hd, hfar => by
    rw [List.foldl_cons]
    exact foldl_segmentDist_gt p pos t _
      (segmentDist_gt p pos dist seg.1 seg.2 hd (hfar seg (List.mem_cons_self _ _)))
      (fun s hs => hfar s (List.mem_cons_of_mem _ hs))

theorem foldl_segmentDist_le (p : QwtPlot) (pos : ℤ × ℤ) :
    ∀ (segs : List ((ℚ × ℚ) × (ℚ × ℚ))) (dist : ℚ),
      (∀ seg ∈ segs, distSq (p.toDevice seg.2) (p.toDevice seg.1) > 1 / 1000000) →
      segs.foldl (fun dist seg => p.segmentDist pos dist seg.1 seg.2) dist ≤ dist
  | [], _, _ => le_rfl
  | seg :: t, dist, hnd => by
    rw [List.foldl_cons]
    exact le_trans (foldl_segmentDist_le p pos t _ (fun s hs => hnd s (List.mem_cons_of_mem _ hs)))
      (segmentDist_le p pos dist seg.1 seg.2 (hnd seg (List.mem_cons_self _ _)))

theorem foldl_segmentDist_hit (p : QwtPlot) (pos : ℤ × ℤ) (hit : (ℚ × ℚ) × (ℚ × ℚ))
    (hin : 0 ≤ projection (clickPoint pos) (p.toDevice hit.1) (p.toDevice hit.2)
      ∧ projection (clickPoint pos) (p.toDevice hit.1) (p.toDevice hit.2) ≤ 1)
    (hnear : segmentDistSq (clickPoint pos) (p.toDevice hit.1) (p.toDevice hit.2) ≤ 25) :
    ∀ (segs : List ((ℚ × ℚ) × (ℚ × ℚ))) (dist : ℚ), hit ∈ segs →
      (∀ seg ∈ segs, distSq (p.toDevice seg.2) (p.toDevice seg.1) > 1 / 1000000) →
      segs.foldl (fun dist seg => p.segmentDist pos dist seg.1 seg.2) dist ≤ 25
  | [], _, hmem, _ => absurd hmem (List.not_mem_nil _)
  | seg :: t, dist, hmem, hnd => by
    rw [List.foldl_cons]
    rcases List.mem_cons.mp hmem with h | h
    · subst h
      exact le_trans
        (foldl_segmentDist_le p pos t _ (fun s hs => hnd s (List.mem_cons_of_mem _ hs)))
        (le_trans (segmentDist_le_hit p pos dist hit.1 hit.2
          (hnd hit (List.mem_cons_self _ _)) hin) hnear)
    · exact foldl_segmentDist_hit p pos hit hin hnear t _ h
        (fun s hs => hnd s (List.mem_cons_of_mem _ hs))

theorem itemAtLoop_none (p : QwtPlot) (pos : ℤ × ℤ) :
    ∀ items : List QwtPlotItem, (∀ it ∈ items, p.hits pos it = false) →
      p.itemAtLoop pos items = none
  | [], _ => rfl
  | item :: rest, h => by
    have h0 := h item (List.mem_cons_self _ _)
    simp only [QwtPlot.hits, Bool.or_eq_false_iff, decide_eq_false_iff_not] at h0
    unfold QwtPlot.itemAtLoop
    rw [if_neg h0.1, if_neg h0.2]
    exact itemAtLoop_none p pos rest (fun it hit => h it (List.mem_cons_of_mem _ hit))

theorem on_picker_appended_none (f : SimFigure) (pos : ℤ × ℤ) (hitem : f.itemAt pos = none) :
    f.on_picker_appended pos = { f with warnings := f.warnings + 1 } := by
  unfold SimFigure.on_picker_appended
  rw [hitem]

/-- In exact arithmetic: when every segment of `c` lies at a geometric distance
above 5 from the click point, the distance computed by the segment loop is
above 5.  The source evaluates the same expressions in double precision, where
a distance within rounding error of 5 may compare differently. -/
theorem curveDist_gt (p : QwtPlot) (pos : ℤ × ℤ) (c : QwtPlotItem)
    (hfar : ∀ seg ∈ p.deviceSegments c, 25 < segmentDistSq (clickPoint pos) seg.1 seg.2) :
    25 < p.curveDist pos c := by
  unfold QwtPlot.curveDist
  apply foldl_segmentDist_gt p pos c.segments 1000000 (by norm_num)
  intro seg hseg
  exact hfar (p.toDevice seg.1, p.toDevice seg.2)
    (List.mem_map_of_mem (fun seg => (p.toDevice seg.1, p.toDevice seg.2)) hseg)

/-- In exact arithmetic: when `c` has no degenerate segment and some segment lies
at a geometric distance of at most 5 from the click point, with the foot of
the perpendicular inside the segment, the distance computed by the segment
loop is at most 5.  The source evaluates the same expressions in double
precision, where a distance within rounding error of 5 may compare
differently. -/
theorem curveDist_le (p : QwtPlot) (pos : ℤ × ℤ) (c : QwtPlotItem) (seg : (ℚ × ℚ) × (ℚ × ℚ))
    (hnd : ∀ s ∈ p.deviceSegments c, distSq s.2 s.1 > 1 / 1000000)
    (hseg : seg ∈ p.deviceSegments c)
    (hin : 0 ≤ projection (clickPoint pos) seg.1 seg.2
      ∧ projection (clickPoint pos) seg.1 seg.2 ≤ 1)
    (hnear : segmentDistSq (clickPoint pos) seg.1 seg.2 ≤ 25) :
    p.curveDist pos c ≤ 25 := by
  unfold QwtPlot.curveDist
  obtain ⟨s0, hs0, rfl⟩ := List.mem_map.mp hseg
  apply foldl_segmentDist_hit p pos s0 hin hnear c.segments 1000000 hs0
  intro s hs
  exact hnd (p.toDevice s.1, p.toDevice s.2)
    (List.mem_map_of_mem (fun seg => (p.toDevice seg.1, p.toDevice seg.2)) hs)

theorem twoCurves_plot :
    SimFigure.twoCurves.m_plot.itemList
      = [QwtPlotItem.line 1 ⟨QColor.black, 2, PenStyle.SolidLine⟩ [(0, 0), (10, 0)],
         QwtPlotItem.line 2 ⟨QColor.cyan, 2, PenStyle.DashLine⟩ [(0, 10), (10, 10)]]
    ∧ SimFigure.twoCurves.m_plot.canvasMap = fun _ => QwtScaleMap.identity := by
  constructor <;>
  norm_num [SimFigure.twoCurves, SimFigure.oneCurve, SimFigure.plot, SimFigure.blank,
    QwtPlot.blank, MAX, MIN, SimFigure.rescale, QwtPlot.replot, QwtPlot.setAxisScale,
    QwtPlot.attach, QwtPlot.insertItem, QwtPlotItem.newCurve, QwtPlotItem.setSamples,
    SimFigure.setLineStyleCurve, SimFigure.setMarkerCurve, SimFigure.setLineColorCurve,
    QPen.setWidth, QPen.setStyle, QPen.setColor, QPen.default, QwtPlotItem.line]

theorem twoCurves_deviceSegments (a : Ptr) (pen : QPen) (samples : List (ℚ × ℚ)) :
    SimFigure.twoCurves.m_plot.deviceSegments (QwtPlotItem.line a pen samples)
      = List.zip samples samples.tail := by
  simp [QwtPlot.deviceSegments, QwtPlotItem.segments, QwtPlotItem.line, QwtPlotItem.newCurve,
    QwtPlot.toDevice, twoCurves_plot.2, QwtScaleMap.identity]

/-- When the item loop reports no item of the item list (no visible curve with a
computed distance of at most 5, no visible shape that contains the click
point), `itemAt` returns no item, and the click handler leaves the selection
record, the emitted `curve_selected` signals and the plot surface unchanged. -/
theorem on_picker_appended_no_hit (f : SimFigure) (pos : ℤ × ℤ)
    (hno : ∀ it ∈ f.m_plot.itemList, f.m_plot.hits pos it = false) :
    f.itemAt pos = none
    ∧ (f.on_picker_appended pos).lastSelection = f.lastSelection
    ∧ (f.on_picker_appended pos).emitted = f.emitted
    ∧ (f.on_picker_appended pos).m_plot = f.m_plot := by
  have hitem : f.itemAt pos = none := by
    unfold SimFigure.itemAt
    exact itemAtLoop_none f.m_plot pos _ (fun it hit => hno it (List.mem_reverse.mp hit))
  rw [on_picker_appended_none f pos hitem]
  exact ⟨hitem, rfl, rfl, rfl⟩

/-! ## Lemmas on sequences of calls -/

theorem sameHandles_refl (f : SimFigure) : f.sameHandles f := ⟨rfl, rfl, le_rfl⟩

theorem sameHandles_trans (f g h : SimFigure) (h1 : f.sameHandles g) (h2 : g.sameHandles h) :
    f.sameHandles h :=
  ⟨h2.1.trans h1.1, h2.2.1.trans h1.2.1, le_trans h1.2.2 h2.2.2⟩

theorem sameHandles_refreshGrid (f : SimFigure) : f.sameHandles f.refreshGrid := by
  unfold SimFigure.refreshGrid
  cases hm : f.m_grid <;> cases hg : f.m_showMajorGrid <;>
    simp [SimFigure.sameHandles, hg]

theorem sameHandles_grid (f : SimFigure) (major minor : Bool) :
    f.sameHandles (f.grid major minor) := by
  unfold SimFigure.grid
  exact sameHandles_trans f { f with m_showMajorGrid := major, m_showMinorGrid := minor } _
    ⟨rfl, rfl, le_rfl⟩ (sameHandles_refreshGrid _)

theorem sameHandles_axisTypeChanged (f : SimFigure) : f.sameHandles f.axisTypeChanged := by
  unfold SimFigure.axisTypeChanged
  refine sameHandles_trans f _ _ ?_ (sameHandles_grid _ true true)
  split_ifs
  all_goals exact ⟨rfl, rfl, le_rfl⟩

theorem sameHandles_setAxisType (f : SimFigure) (t : AxisType) :
    f.sameHandles (f.setAxisType t) := by
  unfold SimFigure.setAxisType
  cases t <;>
    exact sameHandles_trans f _ _ (by exact ⟨rfl, rfl, le_rfl⟩) (sameHandles_axisTypeChanged _)

theorem clearSelection_handles (f : SimFigure) :
    f.clearSelection.m_curves = f.m_curves
    ∧ f.clearSelection.m_plotInvMap = f.m_plotInvMap
    ∧ f.clearSelection.heapNext = f.heapNext := by
  unfold SimFigure.clearSelection
  cases hs : f.lastSelection.object <;> exact ⟨rfl, rfl, rfl⟩

theorem selectItem_handles (f : SimFigure) (item : Option Ptr) :
    (f.selectItem item).m_curves = f.m_curves
    ∧ (f.selectItem item).m_plotInvMap = f.m_plotInvMap
    ∧ (f.selectItem item).heapNext = f.heapNext := by
  unfold SimFigure.selectItem
  cases item with
  | none => exact clearSelection_handles f
  | some c => exact clearSelection_handles f

theorem sameHandles_select (f : SimFigure) (ID : Int) : f.sameHandles (f.select ID) := by
  simp only [SimFigure.select]
  split
  · exact ⟨(selectItem_handles f _).1, (selectItem_handles f _).2.1,
      (selectItem_handles f _).2.2.ge⟩
  · exact sameHandles_refl f

theorem sameHandles_setters (f : SimFigure) (ID : Int) (wd : Int) (wdF : ℚ) (lt : LineType)
    (mk : Marker) (color : QColor) :
    f.sameHandles (f.setLineWidth ID wd) ∧ f.sameHandles (f.setLineWidthF ID wdF)
    ∧ f.sameHandles (f.setLineStyle ID lt mk) ∧ f.sameHandles (f.setMarker ID mk)
    ∧ f.sameHandles (f.setLineColor ID color) := by
  refine ⟨?_, ?_, ?_, ?_, ?_⟩
  · unfold SimFigure.setLineWidth; split <;> exact ⟨rfl, rfl, le_rfl⟩
  · unfold SimFigure.setLineWidthF; split <;> exact ⟨rfl, rfl, le_rfl⟩
  · unfold SimFigure.setLineStyle; split <;> exact ⟨rfl, rfl, le_rfl⟩
  · unfold SimFigure.setMarker; split <;> exact ⟨rfl, rfl, le_rfl⟩
  · unfold SimFigure.setLineColor; split <;> exact ⟨rfl, rfl, le_rfl⟩

theorem sameHandles_on_picker_appended (f : SimFigure) (pos : ℤ × ℤ) :
    f.sameHandles (f.on_picker_appended pos) := by
  unfold SimFigure.on_picker_appended SimFigure.sameHandles
  cases f.itemAt pos with
  | none => exact ⟨rfl, rfl, le_rfl⟩
  | some item =>
    simp only
    split_ifs <;>
      simp [(selectItem_handles _ _).1, (selectItem_handles _ _).2.1,
        (selectItem_handles _ _).2.2, (clearSelection_handles _).1,
        (clearSelection_handles _).2.1, (clearSelection_handles _).2.2]

theorem sameHandles_call (f : SimFigure) (c : Call)
    (hc : ∀ x y lt color marker, c ≠ Call.plot x y lt color marker) :
    f.sameHandles (f.call c) := by
  cases c with
  | plot x y lt color marker => exact absurd rfl (hc x y lt color marker)
  | select ID => exact sameHandles_select f ID
  | clearSelection =>
    exact ⟨(clearSelection_handles f).1, (clearSelection_handles f).2.1,
      (clearSelection_handles f).2.2.ge⟩
  | setLineWidth ID wd =>
    exact (sameHandles_setters f ID wd 0 LineType.None Marker.None QColor.black).1
  | setLineWidthF ID wd =>
    exact (sameHandles_setters f ID 0 wd LineType.None Marker.None QColor.black).2.1
  | setLineStyle ID lt marker =>
    exact (sameHandles_setters f ID 0 0 lt marker QColor.black).2.2.1
  | setMarker ID marker =>
    exact (sameHandles_setters f ID 0 0 LineType.None marker QColor.black).2.2.2.1
  | setLineColor ID color =>
    exact (sameHandles_setters f ID 0 0 LineType.None Marker.None color).2.2.2.2
  | setAxisType type => exact sameHandles_setAxisType f type
  | axisTypeChanged => exact sameHandles_axisTypeChanged f
  | grid major minor => exact sameHandles_grid f major minor
  | on_picker_appended pos => exact sameHandles_on_picker_appended f pos

theorem handlesConsistent_of_sameHandles (f g : SimFigure) (h : f.sameHandles g)
    (hf : f.handlesConsistent) : g.handlesConsistent := by
  obtain ⟨h1, h2, h3⟩ := h
  refine ⟨?_, ?_⟩
  · intro a ha
    rw [h1] at ha
    exact lt_of_lt_of_le (hf.1 a ha) h3
  · intro i a hi
    rw [h1] at hi
    rw [h2]
    exact hf.2 i a hi

theorem plot_failed (f : SimFigure) (x y : List ℚ) (lt : LineType) (color : QColor)
    (mk : Marker) (h : x = [] ∨ y = []) : f.plot x y lt color mk = (f, -1) := by
  have hg : (x.length : Int) ≤ 0 ∨ (y.length : Int) ≤ 0 := by
    rcases h with h | h <;> simp [h]
  unfold SimFigure.plot
  simp only [hg, if_true]

theorem plot_map (f : SimFigure) (x y : List ℚ) (lt : LineType) (color : QColor)
    (mk : Marker) (hx : x ≠ []) (hy : y ≠ []) :
    (f.plot x y lt color mk).1.m_plotInvMap
      = QMap.insert f.m_plotInvMap f.heapNext ((f.m_curves.length : Int) + 1) := by
  have hx0 : ¬ ((x.length : Int) ≤ 0) := by
    have : 0 < x.length := List.length_pos.mpr hx
    omega
  have hy0 : ¬ ((y.length : Int) ≤ 0) := by
    have : 0 < y.length := List.length_pos.mpr hy
    omega
  have ha : ∀ c : QwtPlotItem, (SimFigure.setLineColorCurve (SimFigure.setMarkerCurve
      (SimFigure.setLineStyleCurve c lt) mk) color).addr = c.addr := by
    intro c; cases mk <;> rfl
  unfold SimFigure.plot
  simp only [hx0, hy0, or_self, if_false]
  split_ifs <;> simp [SimFigure.rescale, ha, QwtPlotItem.newCurve, QwtPlotItem.setSamples]

theorem value_insert_same (m : List (Ptr × Int)) (k : Ptr) (v : Int) (d : Int) :
    QMap.value (QMap.insert m k v) k d = v := by
  simp [QMap.value, QMap.insert]

theorem value_insert_other (m : List (Ptr × Int)) (k a : Ptr) (v : Int) (d : Int)
    (h : a ≠ k) : QMap.value (QMap.insert m k v) a d = QMap.value m a d := by
  have hka : (k == a) = false := by simpa using (Ne.symm h)
  simp only [QMap.value, QMap.insert, List.find?_cons, hka]
  have : (m.filter (fun e => e.1 != k)).find? (fun e => e.1 == a)
      = m.find? (fun e => e.1 == a) := by
    induction m with
    | nil => rfl
    | cons e t ih =>
      rw [List.filter_cons]
      cases hek : (e.1 != k)
      · have hek' : e.1 = k := by simpa using hek
        have hea : (e.1 == a) = false := by rw [hek']; exact hka
        simp only [Bool.false_eq_true, if_false, List.find?_cons, hea, ih]
      · simp only [if_true, List.find?_cons, ih]
  rw [this]

theorem handlesConsistent_plot (f : SimFigure) (x y : List ℚ) (lt : LineType) (color : QColor)
    (mk : Marker) (hf : f.handlesConsistent) : (f.plot x y lt color mk).1.handlesConsistent := by
  by_cases h : x = [] ∨ y = []
  · rw [plot_failed f x y lt color mk h]; exact hf
  · have hx : x ≠ [] := fun e => h (Or.inl e)
    have hy : y ≠ [] := fun e => h (Or.inr e)
    obtain ⟨-, h2, -, h4⟩ := plot_nonempty_eq f x y lt color mk hx hy
    have h5 := plot_map f x y lt color mk hx hy
    refine ⟨?_, ?_⟩
    · intro a ha
      rw [h2] at ha
      rw [h4]
      rcases List.mem_append.mp ha with ha | ha
      · exact Nat.lt_succ_of_lt (hf.1 a ha)
      · rw [List.mem_singleton.mp ha]
        exact Nat.lt_succ_self _
    · intro i a hi
      rw [h2, List.get?_eq_getElem?] at hi
      rw [h5]
      by_cases hlt : i < f.m_curves.length
      · rw [List.getElem?_append_left hlt] at hi
        have hi' : f.m_curves.get? i = some a := by rw [List.get?_eq_getElem?]; exact hi
        have hmem : a ∈ f.m_curves := List.getElem?_mem hi
        have hne : a ≠ f.heapNext := Nat.ne_of_lt (hf.1 a hmem)
        rw [value_insert_other _ _ _ _ _ hne]
        exact hf.2 i a hi'
      · have hge : f.m_curves.length ≤ i := not_lt.mp hlt
        rw [List.getElem?_append_right hge] at hi
        have hi0 : i - f.m_curves.length = 0 := by
          by_contra hne
          have : [f.heapNext][i - f.m_curves.length]? = none := by
            rw [List.getElem?_eq_none]; simp; omega
          rw [this] at hi; cases hi
        rw [hi0] at hi
        have ha : a = f.heapNext := by simpa using hi.symm
        subst ha
        rw [value_insert_same]
        have : i = f.m_curves.length := by omega
        rw [this]

theorem call_plot_or_same (f : SimFigure) (c : Call) :
    (∃ x y lt color marker, c = Call.plot x y lt color marker) ∨ f.sameHandles (f.call c) := by
  by_cases h : ∃ x y lt color marker, c = Call.plot x y lt color marker
  · exact Or.inl h
  · exact Or.inr (sameHandles_call f c (fun x y lt color marker e => h ⟨x, y, lt, color, marker, e⟩))

theorem handlesConsistent_call (f : SimFigure) (c : Call) (hf : f.handlesConsistent) :
    (f.call c).handlesConsistent := by
  rcases call_plot_or_same f c with ⟨x, y, lt, color, marker, rfl⟩ | h
  · exact handlesConsistent_plot f x y lt color marker hf
  · exact handlesConsistent_of_sameHandles f _ h hf

theorem curves_prefix_plot (f : SimFigure) (x y : List ℚ) (lt : LineType) (color : QColor)
    (mk : Marker) : f.m_curves <+: (f.plot x y lt color mk).1.m_curves := by
  by_cases h : x = [] ∨ y = []
  · rw [plot_failed f x y lt color mk h]
  · have hx : x ≠ [] := fun e => h (Or.inl e)
    have hy : y ≠ [] := fun e => h (Or.inr e)
    rw [(plot_nonempty_eq f x y lt color mk hx hy).2.1]
    exact List.prefix_append _ _

theorem curves_prefix_call (f : SimFigure) (c : Call) : f.m_curves <+: (f.call c).m_curves := by
  rcases call_plot_or_same f c with ⟨x, y, lt, color, marker, rfl⟩ | h
  · exact curves_prefix_plot f x y lt color marker
  · rw [h.1]

theorem run_invariant (cs : List Call) : ∀ f : SimFigure, f.handlesConsistent →
    (f.run cs).handlesConsistent ∧ f.m_curves <+: (f.run cs).m_curves := by
  induction cs with
  | nil => intro f hf; exact ⟨hf, List.prefix_refl _⟩
  | cons c cs ih =>
    intro f hf
    obtain ⟨h1, h2⟩ := ih (f.call c) (handlesConsistent_call f c hf)
    exact ⟨h1, (curves_prefix_call f c).trans h2⟩

theorem get?_of_prefix (l1 l2 : List Ptr) (h : l1 <+: l2) (i : Nat) (a : Ptr)
    (hi : l1.get? i = some a) : l2.get? i = some a := by
  obtain ⟨t, rfl⟩ := h
  rw [List.get?_eq_getElem?] at hi ⊢
  have hlt : i < l1.length := by
    by_contra hge
    rw [List.getElem?_eq_none (not_lt.mp hge)] at hi
    cases hi
  rw [List.getElem?_append_left hlt]
  exact hi

theorem plotted_positions (cs : List Call) : ∀ f : SimFigure, f.handlesConsistent →
    ∀ hc ∈ f.plotted cs, 0 < hc.1 ∧ (f.run cs).m_curves.get? (hc.1 - 1).toNat = some hc.2 := by
  induction cs with
  | nil => intro f _ hc hmem; simp [SimFigure.plotted] at hmem
  | cons c cs ih =>
    intro f hf hc hmem
    have hrun : f.run (c :: cs) = (f.call c).run cs := rfl
    rw [hrun]
    cases c with
    | plot x y lt color marker =>
      have hf' := handlesConsistent_plot f x y lt color marker hf
      simp only [SimFigure.plotted] at hmem
      by_cases hfail : (f.plot x y lt color marker).2 = -1
      · rw [if_pos hfail] at hmem
        exact ih _ hf' hc hmem
      · rw [if_neg hfail] at hmem
        rcases List.mem_cons.mp hmem with rfl | hmem
        · have hne : ¬ (x = [] ∨ y = []) := by
            intro h; rw [plot_failed f x y lt color marker h] at hfail; exact hfail rfl
          have hx : x ≠ [] := fun e => hne (Or.inl e)
          have hy : y ≠ [] := fun e => hne (Or.inr e)
          obtain ⟨h1, h2, -, -⟩ := plot_nonempty_eq f x y lt color marker hx hy
          refine ⟨by rw [h1]; omega, ?_⟩
          apply get?_of_prefix _ _ (run_invariant cs _ hf').2
          simp only [SimFigure.call]
          rw [h1, h2]
          have : ((f.m_curves.length : Int) + 1 - 1).toNat = f.m_curves.length := by omega
          rw [this, List.get?_eq_getElem?]
          simp
        · exact ih _ hf' hc hmem
    | _ =>
      simp only [SimFigure.plotted] at hmem
      exact ih _ (handlesConsistent_call f _ hf) hc hmem

theorem select_consistent (f : SimFigure) (h : Int) (c : Ptr) (hf : f.handlesConsistent)
    (h0 : 0 < h) (hc : f.m_curves.get? (h - 1).toNat = some c) :
    (f.select h).lastSelection.object = some c
    ∧ (f.select h).lastSelection.plotID = h
    ∧ (f.select h).emitted = f.emitted ++ [-1, h] := by
  have hlen : (h - 1).toNat < f.m_curves.length := by
    by_contra hge
    rw [List.get?_eq_none.mpr (not_lt.mp hge)] at hc
    cases hc
  have hv : QList.value f.m_curves (h - 1) = some c := by
    unfold QList.value
    rw [if_neg (by omega)]
    exact hc
  have hid : QMap.value f.m_plotInvMap c (-1) = h := by
    rw [hf.2 _ c hc]; omega
  have hsel : f.select h = f.selectItem (some c) := by
    have h1 : (f.m_curves.length : Int) ≥ h := by omega
    simp [SimFigure.select, h0, h1, hv]
  rw [hsel]
  have hm := (clearSelection_handles f).2.1
  have he : f.clearSelection.emitted = f.emitted ++ [-1] := by
    unfold SimFigure.clearSelection
    cases hs : f.lastSelection.object <;> rfl
  simp [SimFigure.selectItem, hm, hid, he]

theorem plotted_plot_cons (f : SimFigure) (x y : List ℚ) (lt : LineType) (color : QColor)
    (mk : Marker) (cs : List Call) (hx : x ≠ []) (hy : y ≠ []) :
    f.plotted (Call.plot x y lt color mk :: cs)
      = ((f.m_curves.length : Int) + 1, f.heapNext) :: (f.plot x y lt color mk).1.plotted cs := by
  have h1 := (plot_nonempty_eq f x y lt color mk hx hy).1
  have hne : ¬ ((f.m_curves.length : Int) + 1 = -1) := by omega
  simp only [SimFigure.plotted, h1, if_neg hne]

/-! ## Lemmas on the tracked minimum and on the item loop -/

theorem foldl_segmentDist_eq_min (p : QwtPlot) (pos : ℤ × ℤ) :
    ∀ (segs : List ((ℚ × ℚ) × (ℚ × ℚ))) (dist : ℚ),
      (∀ seg ∈ segs, distSq (p.toDevice seg.2) (p.toDevice seg.1) > 1 / 1000000) →
      segs.foldl (fun dist seg => p.segmentDist pos dist seg.1 seg.2) dist
        = (segs.map (fun seg => (p.toDevice seg.1, p.toDevice seg.2))).foldl
            (fun m seg =>
              match segmentDistance (clickPoint pos) seg.1 seg.2 with
              | some d => min m d
              | none => m) dist
  | [], _, _ => rfl
  | seg :: t, dist, hnd => by
    rw [List.map_cons, List.foldl_cons, List.foldl_cons]
    have h0 := hnd seg (List.mem_cons_self _ _)
    have hstep : p.segmentDist pos dist seg.1 seg.2
        = (match segmentDistance (clickPoint pos) (p.toDevice seg.1) (p.toDevice seg.2) with
          | some d => min dist d
          | none => dist) := by
      rw [segmentDist_eq, if_pos h0]
      unfold segmentDistance
      rw [if_pos h0]
      split_ifs with h1 h2
      · simp only; rw [min_eq_right h2.le]
      · simp only; rw [min_eq_left (not_lt.mp h2)]
      · rfl
    rw [hstep]
    exact foldl_segmentDist_eq_min p pos t _ (fun s hs => hnd s (List.mem_cons_of_mem _ hs))

/-- Without a degenerate segment the distance computed by `itemAt` for a curve
is the tracked minimum of the per-segment distances. -/
theorem curveDist_eq_min_of_nondegenerate (p : QwtPlot) (pos : ℤ × ℤ) (c : QwtPlotItem)
    (hnd : ∀ s ∈ p.deviceSegments c, distSq s.2 s.1 > 1 / 1000000) :
    p.curveDist pos c = p.minSegmentDist pos c := by
  unfold QwtPlot.curveDist QwtPlot.minSegmentDist QwtPlot.deviceSegments
  apply foldl_segmentDist_eq_min
  intro s hs
  exact hnd (p.toDevice s.1, p.toDevice s.2)
    (List.mem_map_of_mem (fun seg => (p.toDevice seg.1, p.toDevice seg.2)) hs)

theorem repeatedSample_plot :
    SimFigure.repeatedSample.m_plot.itemList
      = [QwtPlotItem.line 1 ⟨QColor.black, 2, PenStyle.SolidLine⟩ [(0, 0), (10, 0), (10, 0)]]
    ∧ SimFigure.repeatedSample.m_plot.canvasMap = fun _ => QwtScaleMap.identity := by
  constructor <;>
  norm_num [SimFigure.repeatedSample, SimFigure.plot, SimFigure.blank,
    QwtPlot.blank, MAX, MIN, SimFigure.rescale, QwtPlot.replot, QwtPlot.setAxisScale,
    QwtPlot.attach, QwtPlot.insertItem, QwtPlotItem.newCurve, QwtPlotItem.setSamples,
    SimFigure.setLineStyleCurve, SimFigure.setMarkerCurve, SimFigure.setLineColorCurve,
    QPen.setWidth, QPen.setStyle, QPen.setColor, QPen.default, QwtPlotItem.line]

theorem repeatedSample_steps :
    SimFigure.repeatedSample.m_plot.segmentDist (2, 1) 1000000 (0, 0) (10, 0) = 1
    ∧ SimFigure.repeatedSample.m_plot.segmentDist (2, 1) 1 (10, 0) (10, 0) = 65 := by
  constructor <;>
  · simp only [segmentDist_eq, QwtPlot.toDevice, repeatedSample_plot.2, QwtScaleMap.identity]
    norm_num [projection, distSq, clickPoint, segmentDistSq, pointOn, min_def, max_def]

/-- C1. For every figure state and all non-empty sample arrays `x` and `y` of equal
length, `plot(x, y, ...)` returns a handle greater than 0, and afterwards the
figure holds exactly one curve more than before: the curve list `m_curves` is
one longer and one more curve item is attached to the plot surface. -/
theorem plot_returns_positive_handle (f : SimFigure) (x y : List ℚ) (lt : LineType)
    (color : QColor) (mk : Marker) (hx : x ≠ []) (hy : y ≠ [])
    (_hxy : x.length = y.length) :
    (f.plot x y lt color mk).2 > 0
    ∧ (f.plot x y lt color mk).1.m_curves.length = f.m_curves.length + 1
    ∧ (f.plot x y lt color mk).1.m_plot.curveCount = f.m_plot.curveCount + 1 := by
  obtain ⟨h1, h2, h3, -⟩ := plot_nonempty_eq f x y lt color mk hx hy
  refine ⟨?_, ?_, h3⟩
  · rw [h1]; omega
  · rw [h2]; simp

/-- Witness of C1: a two-point curve plotted into the example figure. -/
theorem plot_returns_positive_handle_witness :
    (SimFigure.blank.plot [1, 2] [3, 4] LineType.Solid QColor.black Marker.None).2 > 0
    ∧ (SimFigure.blank.plot [1, 2] [3, 4] LineType.Solid QColor.black Marker.None).1.m_curves.length
        = SimFigure.blank.m_curves.length + 1
    ∧ (SimFigure.blank.plot [1, 2] [3, 4] LineType.Solid QColor.black
        Marker.None).1.m_plot.curveCount = SimFigure.blank.m_plot.curveCount + 1 :=
  plot_returns_positive_handle SimFigure.blank [1, 2] [3, 4] LineType.Solid QColor.black
    Marker.None (by simp) (by simp) (by simp)

/-- C4. For every figure state, if `x` is empty or `y` is empty then
`plot(x, y, ...)` returns the failure handle -1 and the figure state after the
call equals the state before it; in particular the curve list, the
curve-to-handle map and the tracked axis bounds are unchanged. -/
theorem plot_empty_returns_failure (f : SimFigure) (x y : List ℚ) (lt : LineType)
    (color : QColor) (mk : Marker) (h : x = [] ∨ y = []) :
    (f.plot x y lt color mk).2 = -1
    ∧ (f.plot x y lt color mk).1 = f
    ∧ (f.plot x y lt color mk).1.m_curves = f.m_curves
    ∧ (f.plot x y lt color mk).1.m_plotInvMap = f.m_plotInvMap
    ∧ (f.plot x y lt color mk).1.m_xmin = f.m_xmin
    ∧ (f.plot x y lt color mk).1.m_xmax = f.m_xmax
    ∧ (f.plot x y lt color mk).1.m_ymin = f.m_ymin
    ∧ (f.plot x y lt color mk).1.m_ymax = f.m_ymax := by
  have hg : (x.length : Int) ≤ 0 ∨ (y.length : Int) ≤ 0 := by
    rcases h with h | h <;> simp [h]
  have he : f.plot x y lt color mk = (f, -1) := by
    unfold SimFigure.plot
    simp only [hg, if_true]
  simp [he]

/-- Witness of C4: an empty `y` array. -/
theorem plot_empty_returns_failure_witness :
    (SimFigure.blank.plot [1, 2] [] LineType.Solid QColor.black Marker.None).2 = -1
    ∧ (SimFigure.blank.plot [1, 2] [] LineType.Solid QColor.black Marker.None).1
        = SimFigure.blank :=
  ⟨(plot_empty_returns_failure SimFigure.blank [1, 2] [] LineType.Solid QColor.black
      Marker.None (Or.inr rfl)).1,
   (plot_empty_returns_failure SimFigure.blank [1, 2] [] LineType.Solid QColor.black
      Marker.None (Or.inr rfl)).2.1⟩

/-- C5, evaluated on the code. In the example figure, `plot` with three `x`
values and two `y` values does not return -1: it returns the handle 1, the
figure then holds one curve, the curve has the two points `(1, 4)` and `(2, 5)`,
and the tracked bound `m_xmax` is 3, the `x` value that belongs to no point. -/
theorem plot_length_mismatch_adds_curve :
    (SimFigure.blank.plot [1, 2, 3] [4, 5] LineType.Solid QColor.black Marker.None).2 = 1
    ∧ (SimFigure.blank.plot [1, 2, 3] [4, 5] LineType.Solid QColor.black Marker.None).2 ≠ -1
    ∧ (SimFigure.blank.plot [1, 2, 3] [4, 5] LineType.Solid QColor.black
        Marker.None).1.m_curves = [1]
    ∧ ((SimFigure.blank.plot [1, 2, 3] [4, 5] LineType.Solid QColor.black
        Marker.None).1.m_plot.itemList.map (fun it => it.samples)) = [[(1, 4), (2, 5)]]
    ∧ (SimFigure.blank.plot [1, 2, 3] [4, 5] LineType.Solid QColor.black
        Marker.None).1.m_xmax = 3 := by
  obtain ⟨h1, h2, -, -⟩ := plot_nonempty_eq SimFigure.blank [1, 2, 3] [4, 5] LineType.Solid
    QColor.black Marker.None (by simp) (by simp)
  refine ⟨by rw [h1]; rfl, by rw [h1]; decide, by rw [h2]; rfl, ?_, ?_⟩
  · norm_num [SimFigure.plot, SimFigure.blank, QwtPlot.blank, MAX, MIN, SimFigure.rescale,
      QwtPlot.replot, QwtPlot.setAxisScale, QwtPlot.attach, QwtPlot.insertItem,
      QwtPlotItem.newCurve, QwtPlotItem.setSamples, SimFigure.setLineStyleCurve,
      SimFigure.setMarkerCurve, SimFigure.setLineColorCurve]
  · norm_num [SimFigure.plot, SimFigure.blank, QwtPlot.blank, MAX, MIN, SimFigure.rescale,
      QwtPlot.replot, QwtPlot.setAxisScale, QwtPlot.attach, QwtPlot.insertItem,
      QwtPlotItem.newCurve, QwtPlotItem.setSamples, SimFigure.setLineStyleCurve,
      SimFigure.setMarkerCurve, SimFigure.setLineColorCurve]

/-- C6. For every figure state, after `cla()` the curve list is empty, none of
the former curves is attached to the plot surface any more, no curve is
recorded as selected (`lastSelection.object` is null and `lastSelection.plotID`
is -1), and the signal `curve_selected(-1)` was emitted last; `clear()` yields
the same state as `cla()`. -/
theorem cla_clears_curves_and_deselects (f : SimFigure) :
    f.cla.m_curves.length = 0
    ∧ (∀ a ∈ f.m_curves, f.cla.m_plot.item a = none)
    ∧ f.cla.lastSelection.object = none
    ∧ f.cla.lastSelection.plotID = -1
    ∧ f.cla.emitted = f.emitted ++ [-1]
    ∧ f.clear = f.cla := by
  obtain ⟨h1, h2, h3, h4⟩ := claLoop_fields f.m_curves f
  refine ⟨by simp [SimFigure.cla], ?_, by simp [SimFigure.cla], by simp [SimFigure.cla],
    by simp [SimFigure.cla, h3], rfl⟩
  intro a ha
  simp only [SimFigure.cla, QwtPlot.replot, QwtPlot.item, h4]
  rw [List.find?_eq_none]
  intro it hit
  rw [List.mem_filter] at hit
  have hne : it.addr ∉ f.m_curves := by simpa using hit.2
  have : it.addr ≠ a := fun h => hne (h ▸ ha)
  simpa using this

/-- C7. Let curve `A` be the current selection of a figure (`lastSelection.object`
is `A`) and `B` a different curve, both attached to the plot surface.  The first
step of `select(B)`, the call of `clearSelection()`, gives `A` the pen and brush
saved in `lastSelection` and leaves the pen and brush of `B` as they are.  After
`select(B)` the selection record holds `B`, its handle and the pen and brush `B`
had before the call, `B` carries the highlight pen (cyan, width 4, solid) and
`A` still carries the restored pen and brush.  The values saved in
`lastSelection` by a `select(A)` are the pen and brush `A` has after the
`clearSelection()` at the start of that call, i.e. immediately before `A` is
highlighted.  The public `select(int ID)` with the handle of `B` runs exactly
this `select(B)`. -/
theorem select_restores_previous_selection (f : SimFigure) (A B : Ptr)
    (hsel : f.lastSelection.object = some A) (hAB : A ≠ B)
    (hA : (f.m_plot.item A).isSome = true) (hB : (f.m_plot.item B).isSome = true) :
    f.clearSelection.m_plot.penOf A = f.lastSelection.pen
    ∧ f.clearSelection.m_plot.brushOf A = f.lastSelection.brush
    ∧ f.clearSelection.m_plot.penOf B = f.m_plot.penOf B
    ∧ f.clearSelection.m_plot.brushOf B = f.m_plot.brushOf B
    ∧ (f.selectItem (some B)).lastSelection
        = ⟨some B, QMap.value f.m_plotInvMap B (-1), f.m_plot.penOf B, f.m_plot.brushOf B⟩
    ∧ (f.selectItem (some B)).m_plot.penOf B = QPen.ofColorWidth QColor.cyan 4
    ∧ (f.selectItem (some B)).m_plot.penOf A = f.lastSelection.pen
    ∧ (f.selectItem (some B)).m_plot.brushOf A = f.lastSelection.brush
    ∧ (∀ g : SimFigure,
        (g.selectItem (some A)).lastSelection.object = some A
        ∧ (g.selectItem (some A)).lastSelection.pen = g.clearSelection.m_plot.penOf A
        ∧ (g.selectItem (some A)).lastSelection.brush = g.clearSelection.m_plot.brushOf A)
    ∧ (∀ ID : Int, 0 < ID → ID ≤ (f.m_curves.length : Int) →
        QList.value f.m_curves (ID - 1) = some B → f.select ID = f.selectItem (some B)) := by
  obtain ⟨cA, hA⟩ := Option.isSome_iff_exists.mp hA
  obtain ⟨cB, hB⟩ := Option.isSome_iff_exists.mp hB
  have e1 : f.clearSelection.m_plot.item A
      = some { cA with pen := f.lastSelection.pen, brush := f.lastSelection.brush } := by
    simp only [SimFigure.clearSelection, hsel, item_replot]
    rw [item_setBrush_same, item_setPen_same, hA]
    rfl
  have e2 : f.clearSelection.m_plot.item B = some cB := by
    simp only [SimFigure.clearSelection, hsel, item_replot]
    rw [item_setBrush_other _ _ _ _ hAB, item_setPen_other _ _ _ _ hAB, hB]
  have e3 : f.clearSelection.m_plotInvMap = f.m_plotInvMap := by
    simp only [SimFigure.clearSelection, hsel]
  have e4 : (f.selectItem (some B)).m_plot.item B
      = some { cB with pen := QPen.ofColorWidth QColor.cyan 4 } := by
    simp only [SimFigure.selectItem, item_replot]
    rw [item_setPen_same, e2]
    rfl
  have e5 : (f.selectItem (some B)).m_plot.item A
      = some { cA with pen := f.lastSelection.pen, brush := f.lastSelection.brush } := by
    simp only [SimFigure.selectItem, item_replot]
    rw [item_setPen_other _ _ _ _ hAB.symm, e1]
  refine ⟨?_, ?_, ?_, ?_, ?_, ?_, ?_, ?_, ?_, ?_⟩
  · simp [QwtPlot.penOf, e1]
  · simp [QwtPlot.brushOf, e1]
  · simp [QwtPlot.penOf, e2, hB]
  · simp [QwtPlot.brushOf, e2, hB]
  · simp [SimFigure.selectItem, QwtPlot.penOf, QwtPlot.brushOf, e2, e3, hB]
  · simp [QwtPlot.penOf, e4]
  · simp [QwtPlot.penOf, e5]
  · simp [QwtPlot.brushOf, e5]
  · intro g
    simp [SimFigure.selectItem]
  · intro ID h0 h1 hv
    simp [SimFigure.select, h0, h1, hv]

/-- Witness of C7: in the two-curve figure with the first curve selected,
`select` of the second curve. -/
theorem select_restores_previous_selection_witness :
    SimFigure.firstSelected.lastSelection.object = some 1
    ∧ (SimFigure.firstSelected.selectItem (some 2)).lastSelection.object = some 2
    ∧ (SimFigure.firstSelected.selectItem (some 2)).m_plot.penOf 2
        = QPen.ofColorWidth QColor.cyan 4
    ∧ (SimFigure.firstSelected.selectItem (some 2)).m_plot.penOf 1
        = SimFigure.firstSelected.lastSelection.pen :=
  have h := select_restores_previous_selection SimFigure.firstSelected 1 2
    firstSelected_facts.1 (by decide) firstSelected_facts.2.1 firstSelected_facts.2.2
  ⟨firstSelected_facts.1, by rw [h.2.2.2.2.1], h.2.2.2.2.2.1, h.2.2.2.2.2.2.1⟩

/-- C8, evaluated on the code. In the figure with two curves the handle 1 is
valid, the pen of the first curve has width 2, and yet `setLineWidth(1, 7)`
leaves the figure state unchanged and `lineWidth(1)` returns 0 before and after
it; only for the most recent handle 2 does `lineWidth(2)` return 7 after
`setLineWidth(2, 7)`. -/
theorem setLineWidth_ignores_older_handle :
    SimFigure.twoCurves.m_curves.length = 2
    ∧ (SimFigure.twoCurves.m_plot.penOf 1).width = 2
    ∧ SimFigure.twoCurves.setLineWidth 1 7 = SimFigure.twoCurves
    ∧ (SimFigure.twoCurves.setLineWidth 1 7).lineWidth 1 = 0
    ∧ (SimFigure.twoCurves.setLineWidth 2 7).lineWidth 2 = 7 := by
  have hc := twoCurves_curves
  have hg : SimFigure.twoCurves.handleGuard 1 = false :=
    handleGuard_older_handle _ _ (by rw [hc]; decide)
  have hg2 : SimFigure.twoCurves.handleGuard 2 = true := by
    simp [SimFigure.handleGuard, hc, QList.value]
  have e : SimFigure.twoCurves.setLineWidth 1 7 = SimFigure.twoCurves := by
    simp [SimFigure.setLineWidth, hg]
  have hv2 : QList.value SimFigure.twoCurves.m_curves (2 - 1) = some 2 := by
    rw [hc]; decide
  refine ⟨by rw [hc]; rfl, ?_, e, ?_, ?_⟩
  · norm_num [QwtPlot.penOf, QwtPlot.item, QPen.width, qRound, SimFigure.twoCurves,
      SimFigure.oneCurve, SimFigure.plot, SimFigure.blank, QwtPlot.blank, MAX, MIN,
      SimFigure.rescale, QwtPlot.replot, QwtPlot.setAxisScale, QwtPlot.attach,
      QwtPlot.insertItem, QwtPlotItem.newCurve, QwtPlotItem.setSamples,
      SimFigure.setLineStyleCurve, SimFigure.setMarkerCurve, SimFigure.setLineColorCurve,
      QPen.setWidth, QPen.setStyle, QPen.setColor, QPen.default]
  · rw [e]; simp [SimFigure.lineWidth, hg]
  · exact lineWidth_setLineWidth_guarded _ 2 2 7 hg2 hv2 twoCurves_live.2

/-- C9. For every figure state and every out-of-range handle `ID` (`ID <= 0` or
`ID` larger than the number of curves), the setters `setLineWidth` (both
overloads), `setLineStyle`, `setMarker` and `setLineColor` return the figure
state unchanged, `lineWidth` and `lineWidthF` return 0, and `select(ID)` returns
the figure state unchanged, so that no signal is emitted. -/
theorem out_of_range_handle_is_ignored (f : SimFigure) (ID : Int)
    (h : ID ≤ 0 ∨ ID > (f.m_curves.length : Int)) (wd : Int) (wdF : ℚ) (lt : LineType)
    (mk : Marker) (color : QColor) :
    f.setLineWidth ID wd = f
    ∧ f.setLineWidthF ID wdF = f
    ∧ f.setLineStyle ID lt mk = f
    ∧ f.setMarker ID mk = f
    ∧ f.setLineColor ID color = f
    ∧ f.lineWidth ID = 0
    ∧ f.lineWidthF ID = 0
    ∧ f.select ID = f := by
  have hg := handleGuard_out_of_range f ID h
  have hv := value_out_of_range f.m_curves ID h
  refine ⟨?_, ?_, ?_, ?_, ?_, ?_, ?_, ?_⟩
  · simp [SimFigure.setLineWidth, hg]
  · simp [SimFigure.setLineWidthF, hg]
  · simp [SimFigure.setLineStyle, hg]
  · simp [SimFigure.setMarker, hg]
  · simp [SimFigure.setLineColor, hg]
  · simp [SimFigure.lineWidth, hg]
  · simp [SimFigure.lineWidthF, hg]
  · simp [SimFigure.select, hv]

/-- Witness of C9: the handle 1 in a figure without curves. -/
theorem out_of_range_handle_is_ignored_witness :
    SimFigure.blank.setLineWidth 1 7 = SimFigure.blank
    ∧ SimFigure.blank.lineWidth 1 = 0
    ∧ SimFigure.blank.select 1 = SimFigure.blank :=
  have h := out_of_range_handle_is_ignored SimFigure.blank 1
    (Or.inr (by simp [SimFigure.blank])) 7 7 LineType.Solid Marker.None QColor.black
  ⟨h.1, h.2.2.2.2.2.1, h.2.2.2.2.2.2.2⟩

/-- Counterexample to C10 as stated: the example figure has axis type `Default`,
and `setAxisType(Default)` replots the plot surface (one more call of
`replot()` is recorded). -/
theorem setAxisType_same_type_replots :
    SimFigure.blank.axisType = AxisType.Default
    ∧ SimFigure.blank.m_plot.replotCalls = 0
    ∧ (SimFigure.blank.setAxisType AxisType.Default).m_plot.replotCalls = 1 := by
  refine ⟨rfl, rfl, ?_⟩
  simp [SimFigure.blank, QwtPlot.blank, SimFigure.setAxisType, SimFigure.axisTypeChanged,
    Ui.setChecked, SimFigure.grid, SimFigure.refreshGrid, QwtPlot.replot, QwtPlot.attach,
    QwtPlot.setAxisScaleEngine]

/-- C10, amended. For every axis type `t`, if the current axis type of the figure
is already `t` then `setAxisType(t)` leaves the axis type equal to `t` and does
not rescale (`rescale()` is not called, the axis scales are unchanged); it
rebuilds the grid and thereby replots the plot surface exactly once. -/
theorem setAxisType_same_type_no_rescale (f : SimFigure) (t : AxisType)
    (h : f.axisType = t) :
    (f.setAxisType t).axisType = t
    ∧ (f.setAxisType t).rescaleCalls = f.rescaleCalls
    ∧ (f.setAxisType t).m_plot.axisScale = f.m_plot.axisScale
    ∧ (f.setAxisType t).m_plot.replotCalls = f.m_plot.replotCalls + 1 := by
  subst h
  cases hm : f.m_grid <;> cases ht : f.axisType <;>
    simp [SimFigure.setAxisType, SimFigure.axisTypeChanged, Ui.setChecked, SimFigure.grid,
      SimFigure.refreshGrid, hm, ht, QwtPlot.replot, QwtPlot.attach, QwtPlot.detach,
      QwtPlot.setAxisScaleEngine]

/-- Witness of C10, amended: the example figure, whose axis type is `Default`. -/
theorem setAxisType_same_type_no_rescale_witness :
    SimFigure.blank.axisType = AxisType.Default
    ∧ (SimFigure.blank.setAxisType AxisType.Default).axisType = AxisType.Default
    ∧ (SimFigure.blank.setAxisType AxisType.Default).rescaleCalls
        = SimFigure.blank.rescaleCalls :=
  have h := setAxisType_same_type_no_rescale SimFigure.blank AxisType.Default rfl
  ⟨rfl, h.1, h.2.1⟩

/-- C11. Take any figure state, call `cla()`, and then any sequence of calls other
than `cla()` and `clear()`.  For every handle `h` that a call of `plot()` in
that sequence returned for the curve `c` it created, `select(h)` on the final
state records `c` as the current selection with `plotID = h`, and the signals
it emits are `curve_selected(-1)` followed by `curve_selected(h)`, so that the
signal emitted last is `curve_selected(h)`. -/
theorem select_plotted_handle (g : SimFigure) (cs : List Call) (h : Int) (c : Ptr)
    (hmem : (h, c) ∈ g.cla.plotted cs) :
    ((g.cla.run cs).select h).lastSelection.object = some c
    ∧ ((g.cla.run cs).select h).lastSelection.plotID = h
    ∧ ((g.cla.run cs).select h).emitted = (g.cla.run cs).emitted ++ [-1, h]
    ∧ ((g.cla.run cs).select h).emitted.getLast? = some h := by
  have h0 : g.cla.handlesConsistent := by
    have hc : g.cla.m_curves = [] := by simp [SimFigure.cla]
    refine ⟨?_, ?_⟩
    · intro a ha; rw [hc] at ha; exact absurd ha (List.not_mem_nil _)
    · intro i a hi; rw [hc] at hi; simp at hi
  obtain ⟨hpos, hget⟩ := plotted_positions cs g.cla h0 (h, c) hmem
  obtain ⟨h1, h2, h3⟩ := select_consistent (g.cla.run cs) h c (run_invariant cs g.cla h0).1
    hpos hget
  refine ⟨h1, h2, h3, ?_⟩
  rw [h3]
  simp [List.getLast?_append]

/-- Witness of C11: after `cla()` and two calls of `plot()`, the second call returned
the handle 2 for the curve at address 2. -/
theorem select_plotted_handle_witness :
    ((SimFigure.blank.cla.run
        [Call.plot [0, 10] [0, 0] LineType.Solid QColor.black Marker.None,
         Call.plot [0, 10] [10, 10] LineType.Dashed QColor.cyan Marker.None]).select
      2).lastSelection.plotID = 2 :=
  (select_plotted_handle SimFigure.blank
    [Call.plot [0, 10] [0, 0] LineType.Solid QColor.black Marker.None,
     Call.plot [0, 10] [10, 10] LineType.Dashed QColor.cyan Marker.None] 2 2
    (by
      have e1 := plot_nonempty_eq SimFigure.blank.cla [0, 10] [0, 0] LineType.Solid QColor.black
        Marker.None (by simp) (by simp)
      rw [plotted_plot_cons _ _ _ _ _ _ _ (by simp) (by simp),
        plotted_plot_cons _ _ _ _ _ _ _ (by simp) (by simp), e1.2.1, e1.2.2.2]
      simp [SimFigure.cla, SimFigure.claLoop, SimFigure.blank])).2.1

/-- C12, evaluated on the code. The figure `repeatedSample` holds one curve with the
device segments `(0,0)-(10,0)` and `(10,0)-(10,0)`, the second one degenerate.
For the click point `(2, 1)` the per-segment distances are 1 and `sqrt 65` (the
squares are 1 and 65), so their minimum is 1.  In the loop of `itemAt` the
variable `dist` is 1 after the first segment and `sqrt 65` after the second:
the degenerate segment raises the minimum found before, the distance compared
with the tolerance is `sqrt 65` and not the minimum 1, and `itemAt` returns no
item for a click one pixel from the curve. -/
theorem degenerate_segment_raises_minimum :
    SimFigure.repeatedSample.m_plot.itemList
      = [QwtPlotItem.line 1 ⟨QColor.black, 2, PenStyle.SolidLine⟩ [(0, 0), (10, 0), (10, 0)]]
    ∧ SimFigure.repeatedSample.m_plot.deviceSegments
        (QwtPlotItem.line 1 ⟨QColor.black, 2, PenStyle.SolidLine⟩ [(0, 0), (10, 0), (10, 0)])
        = [((0, 0), (10, 0)), ((10, 0), (10, 0))]
    ∧ segmentDistance (clickPoint (2, 1)) (0, 0) (10, 0) = some 1
    ∧ segmentDistance (clickPoint (2, 1)) (10, 0) (10, 0) = some 65
    ∧ SimFigure.repeatedSample.m_plot.minSegmentDist (2, 1)
        (QwtPlotItem.line 1 ⟨QColor.black, 2, PenStyle.SolidLine⟩ [(0, 0), (10, 0), (10, 0)]) = 1
    ∧ SimFigure.repeatedSample.m_plot.segmentDist (2, 1) 1000000 (0, 0) (10, 0) = 1
    ∧ SimFigure.repeatedSample.m_plot.segmentDist (2, 1) 1 (10, 0) (10, 0) = 65
    ∧ SimFigure.repeatedSample.m_plot.curveDist (2, 1)
        (QwtPlotItem.line 1 ⟨QColor.black, 2, PenStyle.SolidLine⟩ [(0, 0), (10, 0), (10, 0)]) = 65
    ∧ SimFigure.repeatedSample.itemAt (2, 1) = none := by
  have hseg : SimFigure.repeatedSample.m_plot.deviceSegments
      (QwtPlotItem.line 1 ⟨QColor.black, 2, PenStyle.SolidLine⟩ [(0, 0), (10, 0), (10, 0)])
      = [((0, 0), (10, 0)), ((10, 0), (10, 0))] := by
    simp [QwtPlot.deviceSegments, QwtPlotItem.segments, QwtPlotItem.line, QwtPlotItem.newCurve,
      QwtPlot.toDevice, repeatedSample_plot.2, QwtScaleMap.identity]
  have hd1 : segmentDistance (clickPoint (2, 1)) (0, 0) (10, 0) = some 1 := by
    norm_num [segmentDistance, projection, distSq, clickPoint, segmentDistSq, pointOn, min_def,
      max_def]
  have hd2 : segmentDistance (clickPoint (2, 1)) (10, 0) (10, 0) = some 65 := by
    norm_num [segmentDistance, distSq, clickPoint]
  have hcd : SimFigure.repeatedSample.m_plot.curveDist (2, 1)
      (QwtPlotItem.line 1 ⟨QColor.black, 2, PenStyle.SolidLine⟩ [(0, 0), (10, 0), (10, 0)])
      = 65 := by
    simp only [QwtPlot.curveDist, QwtPlotItem.segments, QwtPlotItem.line, QwtPlotItem.newCurve,
      List.tail_cons, List.zip_cons_cons, List.zip_nil_right, List.foldl_cons, List.foldl_nil,
      repeatedSample_steps.1, repeatedSample_steps.2]
  refine ⟨repeatedSample_plot.1, hseg, hd1, hd2, ?_, repeatedSample_steps.1,
    repeatedSample_steps.2, hcd, ?_⟩
  · simp only [QwtPlot.minSegmentDist, hseg, List.foldl_cons, List.foldl_nil, hd1, hd2]
    norm_num
  · unfold SimFigure.itemAt
    rw [repeatedSample_plot.1]
    apply itemAtLoop_none
    intro it hit
    have : it = QwtPlotItem.line 1 ⟨QColor.black, 2, PenStyle.SolidLine⟩
        [(0, 0), (10, 0), (10, 0)] := by
      simpa using hit
    subst this
    have hr : (QwtPlotItem.line 1 ⟨QColor.black, 2, PenStyle.SolidLine⟩
        [(0, 0), (10, 0), (10, 0)]).rtti = Rtti.Rtti_PlotCurve := rfl
    simp only [QwtPlot.hits, hcd, hr]
    have hne : ¬ (Rtti.Rtti_PlotCurve = Rtti.Rtti_PlotShape) := by decide
    have hfar : ¬ ((65 : ℚ) ≤ 25) := by norm_num
    simp [hne, hfar]

